import Mathlib

/-
Verification of the ImpressionV2 multimodal data-preparation pipeline
(datasets.py): ground-truth loading, per-modality padding and stacking,
train-only normalization statistics, disk-backed caching, split assembly,
and the optional temporal resampling transform.

Modelling conventions of this shallow embedding:
* numpy arrays are nested lists of rationals (exact arithmetic); the
  float32 cast applied on loader return (astype) and the floating-point
  square root inside np.std are abstract parameter functions f32 and
  sqrtQ, since their numeric rounding is irrelevant to the properties
  below; the double-precision arithmetic inside np.linspace, which does
  change which indices are selected, is modelled exactly by fl64, an
  exact-rational image of IEEE-754 binary64 rounding (to nearest, ties
  to even);
* fallible python code (assert, KeyError, FileNotFoundError, numpy
  ValueError and IndexError) is Except String;
* the filesystem cache is an explicit record FS of optional artifacts,
  one slot per split and modality, threaded through the loaders;
* np.random.choice(n, k, replace=False) is nondeterministic: the model
  receives the drawn index list as an input, errors exactly when k > n
  (as numpy does), and theorems quantify over all draws that a real
  numpy call can produce (validDraw);
* sample and label identifiers (python str) are an arbitrary linearly
  ordered type K, a python dict built by the code is represented
  canonically by its key-sorted association list with later inserts
  overwriting earlier ones, and a dict read from a pickle is its
  ordered key list plus a lookup function.
-/

set_option maxRecDepth 1000000

namespace ImpressionV2

/-- Equality of fallible results is decidable when both payloads are. -/
instance {ε α : Type} [DecidableEq ε] [DecidableEq α] : DecidableEq (Except ε α) := fun x y =>
  match x, y with
  | .ok a, .ok b =>
    if h : a = b then isTrue (by rw [h]) else isFalse (by intro hc; cases hc; exact h rfl)
  | .error a, .error b =>
    if h : a = b then isTrue (by rw [h]) else isFalse (by intro hc; cases hc; exact h rfl)
  | .ok _, .error _ => isFalse (by intro hc; cases hc)
  | .error _, .ok _ => isFalse (by intro hc; cases hc)

/-- The three data splits. -/
inductive Split where
  | train
  | valid
  | test
deriving DecidableEq, Repr

/-- SET_SIZE of datasets.py: the fixed expected sample count per split. -/
def SET_SIZE : Split → Nat
  | .train => 6000
  | .valid => 2000
  | .test => 2000

/-- Stacked per-sample feature sequence: rows over time, features per row. -/
abbrev Arr2 := List (List ℚ)

/-- Stacked split array of shape (N, T, D). -/
abbrev Arr3 := List (List (List ℚ))

/-- Rounding a rational to the nearest integer with ties to even: the
rounding rule of IEEE-754 arithmetic. -/
def roundNearestEven (q : ℚ) : ℤ :=
  if q - ⌊q⌋ < 1/2 then ⌊q⌋
  else if 1/2 < q - ⌊q⌋ then ⌊q⌋ + 1
  else if ⌊q⌋ % 2 = 0 then ⌊q⌋ else ⌊q⌋ + 1

/-- Rounding a positive rational to the nearest IEEE-754 binary64 value
(53-bit significand, round to nearest, ties to even): the significand is
the nearest-even rounding of the input scaled into [2^52, 2^53). Exact
for magnitudes in the normal range, which covers every value the
embedded linspace computes; overflow and subnormals are not modelled. -/
def fl64pos (q : ℚ) : ℚ :=
  (roundNearestEven (q / 2 ^ (Int.log 2 q - 52)) : ℚ) * 2 ^ (Int.log 2 q - 52)

/-- Rounding any rational to binary64. -/
def fl64 (q : ℚ) : ℚ :=
  if q = 0 then 0
  else if q < 0 then -fl64pos (-q)
  else fl64pos q

/-- np.linspace(0, stop, num) as its float64 values: numpy computes the
step stop/(num-1) once in double precision, forms each value as the
double-precision product i * step, and finally writes the right
endpoint exactly (endpoint=True). num = 1 gives the single value 0. -/
def linspaceFloat (stop num : Nat) : List ℚ :=
  if num ≤ 1 then (List.range num).map (fun _ => (0 : ℚ))
  else
    (List.range num).map (fun i =>
      if i = num - 1 then (stop : ℚ)
      else fl64 ((i : ℚ) * fl64 ((stop : ℚ) / ((num - 1 : Nat) : ℚ))))

/-- np.linspace(0, stop, num, dtype=int): the float64 values cast to
int, truncating toward zero, which on these nonnegative values is the
floor. The float64 product can land one ulp below an exact integer, so
this differs from exact interpolation at some points (for example
stop=1525, num=46, position 27 gives 914 where the exact interpolant is
915). -/
def linspaceInt (stop num : Nat) : List Nat :=
  (linspaceFloat stop num).map (fun q => (⌊q⌋).toNat)

/-- The selection rule the specification text describes instead: linear
interpolation with each value rounded to the NEAREST valid index
(floor of x + 1/2). Compared against linspaceInt, never used by the
embedded code itself. -/
def linspaceRoundNearest (stop num : Nat) : List Nat :=
  if num ≤ 1 then List.range num
  else (List.range num).map (fun i => (2 * stop * i + (num - 1)) / (2 * (num - 1)))

/-- Numpy fancy indexing xs[idx]: gathers the rows at the given indices in
the given order; raises IndexError when an index is out of bounds. -/
def fancyIndex {α : Type} (xs : List α) (idx : List Nat) : Except String (List α) :=
  if idx.all (fun i => decide (i < xs.length)) then
    Except.ok (idx.filterMap (fun i => xs[i]?))
  else Except.error "IndexError: index out of bounds"

/-- np.random.choice(n, k, replace=False), with the drawn list supplied
from outside: numpy raises exactly when k exceeds the population size n,
otherwise it returns some draw. -/
def npChoiceNoReplace (n k : Nat) (draw : List Nat) : Except String (List Nat) :=
  if k ≤ n then Except.ok draw
  else Except.error "ValueError: Cannot take a larger sample than population when replace=False"

/-- The draws a real np.random.choice(n, k, replace=False) call can
return: k distinct indices below n. -/
def validDraw (n k : Nat) (draw : List Nat) : Prop :=
  draw.length = k ∧ draw.Nodup ∧ ∀ i ∈ draw, i < n

instance (n k : Nat) (draw : List Nat) : Decidable (validDraw n k draw) := by
  unfold validDraw; infer_instance

/-- ndarray.sort(): ascending in-place sort, modelled functionally. -/
def npSort (l : List Nat) : List Nat := l.insertionSort (· ≤ ·)

/-- One item of a TensorDataset: the 4-tuple (audio, face, text, label)
with each modality a list of time rows. -/
structure Sample (A F T L : Type) where
  audio : List A
  face : List F
  text : List T
  label : L
deriving DecidableEq

/-- SamplerTransform of datasets.py: three optional per-modality target
lengths and the randomness flag. The target lengths are mutable state
(None is replaced by the observed full length on first call), so calls
return the updated transform. -/
structure SamplerTransform where
  srA : Option Nat
  srF : Option Nat
  srT : Option Nat
  is_random : Bool
deriving DecidableEq, Repr

/-- SamplerTransform.__call__: asserts the fixed full lengths 1526/459/60,
resolves unset target lengths to the full lengths (sticky), asserts each
target length is at most the full length, then subsamples each modality:
deterministically via linspaceInt, or in random mode via a sorted
without-replacement draw from the range excluding the last index. The
draw arguments stand for the three np.random.choice results. -/
def SamplerTransform.call {A F T L : Type} (s : SamplerTransform) (x : Sample A F T L)
    (drawA drawF drawT : List Nat) :
    Except String (Sample A F T L × SamplerTransform) :=
  let al := x.audio.length
  let fl := x.face.length
  let tl := x.text.length
  if al = 1526 then
    if fl = 459 then
      if tl = 60 then
        let srA := s.srA.getD al
        let srF := s.srF.getD fl
        let srT := s.srT.getD tl
        let s2 : SamplerTransform := ⟨some srA, some srF, some srT, s.is_random⟩
        if srA ≤ al then
          if srF ≤ fl then
            if srT ≤ tl then do
              let idx ←
                if s.is_random = false then
                  Except.ok (linspaceInt (al - 1) srA, linspaceInt (fl - 1) srF,
                    linspaceInt (tl - 1) srT)
                else do
                  let a ← npChoiceNoReplace (al - 1) srA drawA
                  let f ← npChoiceNoReplace (fl - 1) srF drawF
                  let t ← npChoiceNoReplace (tl - 1) srT drawT
                  Except.ok (npSort a, npSort f, npSort t)
              let audio_s ← fancyIndex x.audio idx.1
              let face_s ← fancyIndex x.face idx.2.1
              let text_s ← fancyIndex x.text idx.2.2
              Except.ok (⟨audio_s, face_s, text_s, x.label⟩, s2)
            else Except.error "AssertionError: srT <= tl"
          else Except.error "AssertionError: srF <= fl"
        else Except.error "AssertionError: srA <= al"
      else Except.error "AssertionError: tl == 60"
    else Except.error "AssertionError: fl == 459"
  else Except.error "AssertionError: al == 1526"

/-- Sequential evaluation of a fallible function over a list, stopping at
the first failure: the meaning of a python list comprehension whose body
can raise. -/
def mapExcept {α β : Type} (f : α → Except String β) : List α → Except String (List β)
  | [] => Except.ok []
  | a :: l => do
    let b ← f a
    let bs ← mapExcept f l
    Except.ok (b :: bs)

/-- A python dict loaded from a pickle, presented by its ordered key list
plus its lookup function. -/
structure PyCol (K : Type) where
  keys : List K
  get : K → Option ℚ

/-- Keys of an association list. -/
def dictKeys {K β : Type} (m : List (K × β)) : List K := m.map Prod.fst

/-- Lookup in an association list. -/
def dictFind {K β : Type} [DecidableEq K] (m : List (K × β)) (k : K) : Option β :=
  (m.find? (fun p => decide (p.1 = k))).map Prod.snd

/-- Insertion into a key-sorted association list, overwriting an existing
binding: one python dict assignment. -/
def dictInsert {K β : Type} [LinearOrder K] (m : List (K × β)) (k : K) (v : β) :
    List (K × β) :=
  match m with
  | [] => [(k, v)]
  | (k2, v2) :: rest =>
    if k < k2 then (k, v) :: (k2, v2) :: rest
    else if k = k2 then (k, v) :: rest
    else (k2, v2) :: dictInsert rest k v

/-- A python dict built by inserting the given pairs in order (a dict
comprehension): canonically represented by its key-sorted association
list, later bindings overwriting earlier ones. -/
def pyDictOfList {K β : Type} [LinearOrder K] (l : List (K × β)) : List (K × β) :=
  l.foldl (fun m p => dictInsert m p.1 p.2) []

/-- python sorted() on keys. -/
def sortKeys {K : Type} [LinearOrder K] (l : List K) : List K :=
  l.insertionSort (· ≤ ·)

/-- The read-only upstream inputs: the per-split label store and the raw
per-video feature files, each either present with its parsed content or
absent (None models a missing file, read as FileNotFoundError). -/
structure RawData (K : Type) where
  gt_dict : Split → Option (List (K × PyCol K))
  audio_csv : Split → K → Option Arr2
  face_npy : Split → K → Option Arr2
  text_npy : Split → K → Option Arr3

/-- Content of train_audio.pkl: normalized train array plus the two
normalization statistic vectors. -/
structure TrainAudioPkl where
  audio_norm : Arr3
  mean : List ℚ
  std : List ℚ
deriving DecidableEq

/-- The cache directory: one optional persisted artifact per split and
modality; only the train audio artifact carries statistics. -/
structure FS where
  train_audio : Option TrainAudioPkl
  valid_audio : Option Arr3
  test_audio : Option Arr3
  train_face : Option Arr3
  valid_face : Option Arr3
  test_face : Option Arr3
  train_text : Option Arr3
  valid_text : Option Arr3
  test_text : Option Arr3
deriving DecidableEq

/-- The audio_norm array persisted for a split, when its pickle exists. -/
def audioSlot (split : Split) (fs : FS) : Option Arr3 :=
  match split with
  | .train => fs.train_audio.map TrainAudioPkl.audio_norm
  | .valid => fs.valid_audio
  | .test => fs.test_audio

/-- The face array persisted for a split, when its .npy exists. -/
def faceSlot (split : Split) (fs : FS) : Option Arr3 :=
  match split with
  | .train => fs.train_face
  | .valid => fs.valid_face
  | .test => fs.test_face

/-- Write the face artifact of a split. -/
def setFaceSlot (split : Split) (fs : FS) (a : Option Arr3) : FS :=
  match split with
  | .train => { fs with train_face := a }
  | .valid => { fs with valid_face := a }
  | .test => { fs with test_face := a }

/-- The text array persisted for a split, when its .npy exists. -/
def textSlot (split : Split) (fs : FS) : Option Arr3 :=
  match split with
  | .train => fs.train_text
  | .valid => fs.valid_text
  | .test => fs.test_text

/-- Write the text artifact of a split. -/
def setTextSlot (split : Split) (fs : FS) (a : Option Arr3) : FS :=
  match split with
  | .train => { fs with train_text := a }
  | .valid => { fs with valid_text := a }
  | .test => { fs with test_text := a }

/-- np.pad(a, [(0, lmax - len(a)), (0, 0)]): appends all-zero rows up to
lmax; numpy rejects a negative pad width, so a longer sequence is fatal,
never truncated. -/
def padSeq (lmax : Nat) (a : Arr2) : Except String Arr2 :=
  if a.length ≤ lmax then
    Except.ok (a ++ List.replicate (lmax - a.length) (List.replicate (a.headD []).length 0))
  else Except.error "ValueError: index cannot contain negative values"

/-- Number of feature columns of a stacked (N, T, D) array. -/
def featDim (x : Arr3) : Nat := ((x.headD []).headD []).length

/-- Number of time rows of a stacked (N, T, D) array. -/
def timeLen (x : Arr3) : Nat := (x.headD []).length

/-- Sum of feature d over the sample and time axes. -/
def sumFeat (x : Arr3) (d : Nat) : ℚ :=
  (x.map (fun sm => (sm.map (fun row => row.getD d 0)).sum)).sum

/-- np.mean(x, (0, 1)): the D-length per-feature mean over the sample and
time axes jointly. -/
def npMean (x : Arr3) : List ℚ :=
  (List.range (featDim x)).map
    (fun d => sumFeat x d / ((x.length : ℚ) * (timeLen x : ℚ)))

/-- Sum of the squared deviations of feature d from m over both axes. -/
def sumSqDev (x : Arr3) (m : ℚ) (d : Nat) : ℚ :=
  (x.map (fun sm => (sm.map (fun row => (row.getD d 0 - m) ^ 2)).sum)).sum

/-- Per-feature population variance over the sample and time axes. -/
def npVar (x : Arr3) : List ℚ :=
  (List.range (featDim x)).map
    (fun d => sumSqDev x ((npMean x).getD d 0) d / ((x.length : ℚ) * (timeLen x : ℚ)))

/-- np.std(x, (0, 1)): square root of the per-feature variance, the root
taken by the abstract float sqrt. -/
def npStd (sqrtQ : ℚ → ℚ) (x : Arr3) : List ℚ := (npVar x).map sqrtQ

/-- One row of (x - mean) / std: the broadcast affine transform applied
per feature, dividing by std directly with no epsilon guard. -/
def normRow (mean std : List ℚ) (row : List ℚ) : List ℚ :=
  (List.range row.length).map
    (fun d => (row.getD d 0 - mean.getD d 0) / std.getD d 0)

/-- (x - mean) / std on a stacked (N, T, D) array, mean and std
broadcasting over the sample and time axes. -/
def normalizeWith (mean std : List ℚ) (x : Arr3) : Arr3 :=
  x.map (fun sm => sm.map (normRow mean std))

/-- Triple index into a stacked array, 0 out of range. -/
def at3 (x : Arr3) (i j d : Nat) : ℚ := ((x.getD i []).getD j []).getD d 0

/-- _normalize_lld_audio: on the train split computes mean and std from
the given raw array, normalizes and persists array plus statistics; on
valid/test loads the statistics from the persisted train artifact
(FileNotFoundError when absent), applies the same affine transform and
persists only the normalized array. -/
def _normalize_lld_audio (sqrtQ : ℚ → ℚ) (split : Split) (audio_np : Arr3) (fs : FS) :
    Except String (Arr3 × FS) :=
  match split with
  | .train =>
    let mean := npMean audio_np
    let std := npStd sqrtQ audio_np
    let audio_norm := normalizeWith mean std audio_np
    Except.ok (audio_norm, { fs with train_audio := some ⟨audio_norm, mean, std⟩ })
  | .valid =>
    match fs.train_audio with
    | none => Except.error "FileNotFoundError: train_audio.pkl"
    | some t =>
      let audio_norm := normalizeWith t.mean t.std audio_np
      Except.ok (audio_norm, { fs with valid_audio := some audio_norm })
  | .test =>
    match fs.train_audio with
    | none => Except.error "FileNotFoundError: train_audio.pkl"
    | some t =>
      let audio_norm := normalizeWith t.mean t.std audio_np
      Except.ok (audio_norm, { fs with test_audio := some audio_norm })

/-- _create_lld_audio: reads each video's lld.csv (missing file fatal),
zero-pads every sequence to 1526 rows and stacks them in video order. -/
def _create_lld_audio {K : Type} (raw : RawData K) (split : Split) (video_dirs : List K) :
    Except String Arr3 := do
  let audio_list ← mapExcept (fun v =>
    match raw.audio_csv split v with
    | some a => Except.ok a
    | none => Except.error "FileNotFoundError: lld.csv") video_dirs
  mapExcept (padSeq 1526) audio_list

/-- _get_lld_audio: returns the persisted normalized audio if the pickle
for the split exists, otherwise computes, normalizes (persisting) and
returns it; either way the result passes through astype(float32),
modelled by mapping the abstract cast f32. -/
def mapF32 (f32 : ℚ → ℚ) (x : Arr3) : Arr3 :=
  x.map (fun sm => sm.map (fun row => row.map f32))

def _get_lld_audio {K : Type} (sqrtQ f32 : ℚ → ℚ) (raw : RawData K) (split : Split)
    (video_dirs : List K) (fs : FS) : Except String (Arr3 × FS) :=
  match audioSlot split fs with
  | some stored => Except.ok (mapF32 f32 stored, fs)
  | none => do
    let audio_np ← _create_lld_audio raw split video_dirs
    let r ← _normalize_lld_audio sqrtQ split audio_np fs
    Except.ok (mapF32 f32 r.1, r.2)

/-- _creat_resnet18_face: reads each video's features.npy (missing file
fatal), zero-pads each sequence to 459 rows, stacks in video order. -/
def _creat_resnet18_face {K : Type} (raw : RawData K) (split : Split) (video_dirs : List K) :
    Except String Arr3 := do
  let face_list ← mapExcept (fun v =>
    match raw.face_npy split v with
    | some a => Except.ok a
    | none => Except.error "FileNotFoundError: features.npy") video_dirs
  mapExcept (padSeq 459) face_list

/-- _get_resnet18_face: cached load of the stacked face array, computing
and persisting it on a miss (np.save then np.load round-trips the array
verbatim). -/
def _get_resnet18_face {K : Type} (raw : RawData K) (split : Split) (video_dirs : List K)
    (fs : FS) : Except String (Arr3 × FS) :=
  match faceSlot split fs with
  | some stored => Except.ok (stored, fs)
  | none => do
    let face_np ← _creat_resnet18_face raw split video_dirs
    Except.ok (face_np, setFaceSlot split fs (some face_np))

/-- _create_bert_text: loads each video's bert embedding array (missing
file fatal) and concatenates them along the sample axis. -/
def _create_bert_text {K : Type} (raw : RawData K) (split : Split) (videos : List K) :
    Except String Arr3 := do
  let text_list ← mapExcept (fun v =>
    match raw.text_npy split v with
    | some a => Except.ok a
    | none => Except.error "FileNotFoundError: bertemd.npy") videos
  Except.ok text_list.flatten

/-- _get_bert_text: cached load of the stacked text array, computing and
persisting on a miss. -/
def _get_bert_text {K : Type} (raw : RawData K) (split : Split) (videos : List K)
    (fs : FS) : Except String (Arr3 × FS) :=
  match textSlot split fs with
  | some stored => Except.ok (stored, fs)
  | none => do
    let text_np ← _create_bert_text raw split videos
    Except.ok (text_np, setTextSlot split fs (some text_np))

/-- _get_gt: reads the split's label store, drops the label at position
-2 of the ordered label-name list (IndexError when fewer than two
labels), takes the sorted sample names of the first remaining label
column, and builds the dict from sample stem to label vector (a missing
per-label entry is a KeyError). Returns the dict and the label names. -/
def _get_gt {K : Type} [LinearOrder K] (stem : K → K) (raw : RawData K) (split : Split) :
    Except String (List (K × List ℚ) × List K) :=
  match raw.gt_dict split with
  | none => Except.error "FileNotFoundError: annotation pickle"
  | some gt_dict =>
    let target_names0 := dictKeys gt_dict
    if target_names0.length < 2 then Except.error "IndexError: pop index out of range"
    else
      let target_names := target_names0.eraseIdx (target_names0.length - 2)
      match target_names.head? with
      | none => Except.error "IndexError: list index out of range"
      | some t0 =>
        match dictFind gt_dict t0 with
        | none => Except.error "KeyError: first target name"
        | some col0 => do
          let sample_names := sortKeys col0.keys
          let gtList ← mapExcept (fun sname => do
            let vals ← mapExcept (fun tname =>
              match dictFind gt_dict tname with
              | none => Except.error "KeyError: target name"
              | some col =>
                match col.get sname with
                | none => Except.error "KeyError: sample name"
                | some v => Except.ok v) target_names
            Except.ok (stem sname, vals)) sample_names
          Except.ok (pyDictOfList gtList, target_names)

/-- th.utils.data.TensorDataset: the four stacked tensors; construction
asserts equal leading dimensions; its length is the leading dimension. -/
structure TensorDataset (A F T L : Type) where
  audio : List A
  face : List F
  text : List T
  label : List L
deriving DecidableEq

def mkTensorDataset {A F T L : Type} (a : List A) (f : List F) (t : List T) (l : List L) :
    Except String (TensorDataset A F T L) :=
  if a.length = f.length ∧ f.length = t.length ∧ t.length = l.length then
    Except.ok ⟨a, f, t, l⟩
  else Except.error "AssertionError: size mismatch between tensors"

/-- One item of the assembled per-split dataset. -/
abbrev SplitDataset := TensorDataset Arr2 Arr2 Arr2 (List ℚ)

/-- load_impressionv2_dataset_split: loads the ground truth, asserts the
sorted video count equals the split's fixed SET_SIZE, loads the three
modality arrays through the cache, gathers labels in video order and
assembles the TensorDataset. -/
def load_impressionv2_dataset_split {K : Type} [LinearOrder K] (sqrtQ f32 : ℚ → ℚ)
    (stem : K → K) (raw : RawData K) (split : Split) (fs : FS) :
    Except String (SplitDataset × List K × FS) := do
  let g ← _get_gt stem raw split
  let gt := g.1
  let target_names := g.2
  let videos := sortKeys (dictKeys gt)
  if videos.length = SET_SIZE split then do
    let ra ← _get_lld_audio sqrtQ f32 raw split videos fs
    let rf ← _get_resnet18_face raw split videos ra.2
    let rt ← _get_bert_text raw split videos rf.2
    let label_list ← mapExcept (fun v =>
      match dictFind gt v with
      | some lv => Except.ok lv
      | none => Except.error "KeyError: video") videos
    let ds ← mkTensorDataset ra.1 rf.1 rt.1 label_list
    Except.ok (ds, target_names, rt.2)
  else Except.error "AssertionError: len(videos) == SET_SIZE[split]"

/-- A split dataset as returned by the top-level loader: bare, or wrapped
in TensorDatasetWithTransformer carrying a SamplerTransform. -/
inductive MaybeWrapped where
  | plain (d : SplitDataset)
  | wrapped (d : SplitDataset) (t : SamplerTransform)
deriving DecidableEq

/-- load_impressionv2_dataset_all: loads the three splits (threading the
cache), optionally wraps them with the resampling transform (the
randomness flag is passed only to the train wrapper; valid and test are
always wrapped deterministically), asserts that the train label names
equal the other two splits' label names, and returns the three datasets
with the shared label-name list. The binder names test_target_names and
valid_target_names mirror the source, where the names returned by the
valid-split load are bound to the variable test_target_names and vice
versa; both asserts compare against the train names, so the assertion
still enforces that all three lists are identical. -/
def load_impressionv2_dataset_all {K : Type} [LinearOrder K] (sqrtQ f32 : ℚ → ℚ)
    (stem : K → K) (raw : RawData K) (srA srF srT : Option Nat) (is_random : Bool)
    (fs : FS) :
    Except String ((MaybeWrapped × MaybeWrapped × MaybeWrapped) × List K × FS) := do
  let rtr ← load_impressionv2_dataset_split sqrtQ f32 stem raw .train fs
  let train_ds := rtr.1
  let train_target_names := rtr.2.1
  let rva ← load_impressionv2_dataset_split sqrtQ f32 stem raw .valid rtr.2.2
  let valid_ds := rva.1
  let test_target_names := rva.2.1
  let rte ← load_impressionv2_dataset_split sqrtQ f32 stem raw .test rva.2.2
  let test_ds := rte.1
  let valid_target_names := rte.2.1
  let wrap : Bool := srA.isSome || srF.isSome || srT.isSome
  let train_w := if wrap then MaybeWrapped.wrapped train_ds ⟨srA, srF, srT, is_random⟩
    else MaybeWrapped.plain train_ds
  let valid_w := if wrap then MaybeWrapped.wrapped valid_ds ⟨srA, srF, srT, false⟩
    else MaybeWrapped.plain valid_ds
  let test_w := if wrap then MaybeWrapped.wrapped test_ds ⟨srA, srF, srT, false⟩
    else MaybeWrapped.plain test_ds
  if train_target_names = valid_target_names then
    if train_target_names = test_target_names then
      Except.ok ((train_w, valid_w, test_w), train_target_names, rte.2.2)
    else Except.error "AssertionError: train_target_names == test_target_names"
  else Except.error "AssertionError: train_target_names == valid_target_names"

/-- A concrete full-length sample whose feature values are their own time
indices, so a subsampled modality reads back exactly the selected
indices. -/
def natSample : Sample Nat Nat Nat Unit :=
  ⟨List.range 1526, List.range 459, List.range 60, ()⟩

/-- A concrete label column over n sample names with constant value 3. -/
def wCol (n : Nat) : PyCol Nat :=
  ⟨List.range n, fun _ => some 3⟩

/-- A concrete label store with two label names per split, the first of
which (position -2) is the one the loader removes. -/
def wRaw : RawData Nat :=
  ⟨fun split => some [(0, wCol (SET_SIZE split)), (1, wCol (SET_SIZE split))],
   fun _ _ => none, fun _ _ => none, fun _ _ => none⟩

/-- A concrete stacked array of n empty samples. -/
def wArr (n : Nat) : Arr3 := List.replicate n []

/-- A concrete fully populated cache, so every modality load is a cache
hit of the right sample count. -/
def wFS : FS :=
  ⟨some ⟨wArr 6000, [], []⟩, some (wArr 2000), some (wArr 2000),
   some (wArr 6000), some (wArr 2000), some (wArr 2000),
   some (wArr 6000), some (wArr 2000), some (wArr 2000)⟩

/-- The dataset the loader assembles from wRaw and wFS for a split of
size n. -/
def wDS (n : Nat) : SplitDataset :=
  ⟨wArr n, wArr n, wArr n, (List.range n).map (fun _ => [3])⟩

theorem roundNearestEven_le (q : ℚ) : (roundNearestEven q : ℚ) ≤ q + 1/2 := by
  unfold roundNearestEven
  have h1 : (⌊q⌋ : ℚ) ≤ q := Int.floor_le q
  have h2 : q < ⌊q⌋ + 1 := Int.lt_floor_add_one q
  by_cases c1 : q - ⌊q⌋ < 1/2
  · rw [if_pos c1]
    linarith
  · have c1a := not_lt.mp c1
    rw [if_neg c1]
    by_cases c2 : 1/2 < q - ⌊q⌋
    · rw [if_pos c2]
      push_cast
      linarith
    · rw [if_neg c2]
      by_cases c3 : ⌊q⌋ % 2 = 0
      · rw [if_pos c3]
        linarith
      · rw [if_neg c3]
        push_cast
        linarith

theorem roundNearestEven_ge (q : ℚ) : q - 1/2 ≤ (roundNearestEven q : ℚ) := by
  unfold roundNearestEven
  have h1 : (⌊q⌋ : ℚ) ≤ q := Int.floor_le q
  have h2 : q < ⌊q⌋ + 1 := Int.lt_floor_add_one q
  by_cases c1 : q - ⌊q⌋ < 1/2
  · rw [if_pos c1]
    linarith
  · rw [if_neg c1]
    by_cases c2 : 1/2 < q - ⌊q⌋
    · rw [if_pos c2]
      push_cast
      linarith
    · have c2a := not_lt.mp c2
      rw [if_neg c2]
      by_cases c3 : ⌊q⌋ % 2 = 0
      · rw [if_pos c3]
        linarith
      · rw [if_neg c3]
        push_cast
        linarith

theorem fl64pos_le {q : ℚ} (h : 0 < q) : fl64pos q ≤ q + q / 2 ^ 52 := by
  unfold fl64pos
  have h2e : (0:ℚ) < 2 ^ (Int.log 2 q - 52) := by positivity
  have hlog : (2:ℚ) ^ Int.log 2 q ≤ q := Int.zpow_log_le_self (by norm_num) h
  have hebound : (2:ℚ) ^ (Int.log 2 q - 52) ≤ q / 2 ^ 52 := by
    rw [le_div_iff₀ (by positivity : (0:ℚ) < 2 ^ 52)]
    calc (2:ℚ) ^ (Int.log 2 q - 52) * 2 ^ 52
        = 2 ^ (Int.log 2 q - 52) * 2 ^ ((52:ℕ):ℤ) := by rw [zpow_natCast]
      _ = 2 ^ (Int.log 2 q) := by
          rw [← zpow_add₀ (by norm_num : (2:ℚ) ≠ 0)]
          congr 1
          push_cast
          omega
      _ ≤ q := hlog
  calc (roundNearestEven (q / 2 ^ (Int.log 2 q - 52)) : ℚ) * 2 ^ (Int.log 2 q - 52)
      ≤ (q / 2 ^ (Int.log 2 q - 52) + 1/2) * 2 ^ (Int.log 2 q - 52) :=
        mul_le_mul_of_nonneg_right (roundNearestEven_le _) h2e.le
    _ = q + 2 ^ (Int.log 2 q - 52) / 2 := by
        rw [add_mul, div_mul_cancel₀ _ (ne_of_gt h2e)]
        ring
    _ ≤ q + q / 2 ^ 52 := by
        have hh : (2:ℚ) ^ (Int.log 2 q - 52) / 2 ≤ 2 ^ (Int.log 2 q - 52) := by
          linarith
        linarith

theorem fl64pos_ge {q : ℚ} (h : 0 < q) : q - q / 2 ^ 52 ≤ fl64pos q := by
  unfold fl64pos
  have h2e : (0:ℚ) < 2 ^ (Int.log 2 q - 52) := by positivity
  have hlog : (2:ℚ) ^ Int.log 2 q ≤ q := Int.zpow_log_le_self (by norm_num) h
  have hebound : (2:ℚ) ^ (Int.log 2 q - 52) ≤ q / 2 ^ 52 := by
    rw [le_div_iff₀ (by positivity : (0:ℚ) < 2 ^ 52)]
    calc (2:ℚ) ^ (Int.log 2 q - 52) * 2 ^ 52
        = 2 ^ (Int.log 2 q - 52) * 2 ^ ((52:ℕ):ℤ) := by rw [zpow_natCast]
      _ = 2 ^ (Int.log 2 q) := by
          rw [← zpow_add₀ (by norm_num : (2:ℚ) ≠ 0)]
          congr 1
          push_cast
          omega
      _ ≤ q := hlog
  calc q - q / 2 ^ 52
      ≤ q - 2 ^ (Int.log 2 q - 52) / 2 := by
        have hh : (2:ℚ) ^ (Int.log 2 q - 52) / 2 ≤ 2 ^ (Int.log 2 q - 52) := by
          linarith
        linarith
    _ = (q / 2 ^ (Int.log 2 q - 52) - 1/2) * 2 ^ (Int.log 2 q - 52) := by
        rw [sub_mul, div_mul_cancel₀ _ (ne_of_gt h2e)]
        ring
    _ ≤ (roundNearestEven (q / 2 ^ (Int.log 2 q - 52)) : ℚ) * 2 ^ (Int.log 2 q - 52) :=
        mul_le_mul_of_nonneg_right (roundNearestEven_ge _) h2e.le

theorem fl64_zero : fl64 0 = 0 := by
  unfold fl64
  rw [if_pos rfl]

theorem fl64_le {q : ℚ} (h : 0 ≤ q) : fl64 q ≤ q + q / 2 ^ 52 := by
  rcases eq_or_lt_of_le h with heq | hpos
  · rw [← heq, fl64_zero]
    norm_num
  · unfold fl64
    rw [if_neg (ne_of_gt hpos), if_neg (not_lt.mpr hpos.le)]
    exact fl64pos_le hpos

theorem fl64_ge {q : ℚ} (h : 0 ≤ q) : q - q / 2 ^ 52 ≤ fl64 q := by
  rcases eq_or_lt_of_le h with heq | hpos
  · rw [← heq, fl64_zero]
    norm_num
  · unfold fl64
    rw [if_neg (ne_of_gt hpos), if_neg (not_lt.mpr hpos.le)]
    exact fl64pos_ge hpos

theorem fl64_nonneg {q : ℚ} (h : 0 ≤ q) : 0 ≤ fl64 q := by
  have h1 := fl64_ge h
  have h2 : q / 2 ^ 52 ≤ q := div_le_self h (by norm_num)
  linarith

theorem roundNearestEven_eq_of_lt_half (n : ℤ) {q : ℚ} (h1 : (n : ℚ) ≤ q)
    (h2 : q < (n : ℚ) + 1/2) : roundNearestEven q = n := by
  have hf : ⌊q⌋ = n := Int.floor_eq_iff.mpr ⟨h1, by linarith⟩
  unfold roundNearestEven
  rw [hf, if_pos (by linarith : q - (n : ℚ) < 1/2)]

theorem int_log_eq (L : ℤ) {q : ℚ} (hq : 0 < q) (h1 : (2:ℚ) ^ L ≤ q)
    (h2 : q < (2:ℚ) ^ (L + 1)) : Int.log 2 q = L := by
  have ha : (2:ℚ) ^ Int.log 2 q ≤ q := Int.zpow_log_le_self (by norm_num) hq
  have hb : q < (2:ℚ) ^ (Int.log 2 q + 1) := Int.lt_zpow_succ_log_self (by norm_num) q
  by_contra hc
  rcases lt_or_gt_of_ne hc with hlt | hgt
  · have hd : Int.log 2 q + 1 ≤ L := by omega
    have h3 : (2:ℚ) ^ (Int.log 2 q + 1) ≤ 2 ^ L :=
      zpow_le_zpow_right₀ (by norm_num) hd
    linarith
  · have hd : L + 1 ≤ Int.log 2 q := by omega
    have h3 : (2:ℚ) ^ (L + 1) ≤ 2 ^ Int.log 2 q :=
      zpow_le_zpow_right₀ (by norm_num) hd
    linarith

theorem fl64_eq_cert (L m : ℤ) {q : ℚ} (hq : 0 < q) (h1 : (2:ℚ) ^ L ≤ q)
    (h2 : q < (2:ℚ) ^ (L + 1)) (hr : roundNearestEven (q / 2 ^ (L - 52)) = m) :
    fl64 q = (m : ℚ) * 2 ^ (L - 52) := by
  have hlog : Int.log 2 q = L := int_log_eq L hq h1 h2
  unfold fl64 fl64pos
  rw [if_neg (ne_of_gt hq), if_neg (not_lt.mpr hq.le), hlog, hr]

theorem length_linspaceInt (stop num : Nat) : (linspaceInt stop num).length = num := by
  unfold linspaceInt linspaceFloat
  by_cases hn : num ≤ 1 <;> simp [hn]

theorem linspaceInt_getElem {stop num i : Nat} (h2 : 2 ≤ num) (hi : i < num - 1) :
    (linspaceInt stop num)[i]? =
      some (⌊fl64 ((i : ℚ) * fl64 ((stop : ℚ) / ((num - 1 : Nat) : ℚ)))⌋.toNat) := by
  unfold linspaceInt linspaceFloat
  rw [if_neg (by omega), List.getElem?_map, List.getElem?_map,
    List.getElem?_range (by omega : i < num)]
  simp only [Option.map_some']
  rw [if_neg (by omega : ¬ i = num - 1)]

theorem linspaceInt_first {stop num : Nat} (h2 : 2 ≤ num) :
    (linspaceInt stop num)[0]? = some 0 := by
  rw [linspaceInt_getElem h2 (by omega)]
  simp only [Nat.cast_zero, zero_mul, fl64_zero, Int.floor_zero, Int.toNat_zero]

theorem linspaceInt_last {stop num : Nat} (h2 : 2 ≤ num) :
    (linspaceInt stop num)[num - 1]? = some stop := by
  unfold linspaceInt linspaceFloat
  rw [if_neg (by omega), List.getElem?_map, List.getElem?_map,
    List.getElem?_range (by omega : num - 1 < num), Option.map_some', Option.map_some',
    if_pos rfl, Int.floor_natCast, Int.toNat_natCast]

theorem linspaceInt_single (stop : Nat) : linspaceInt stop 1 = [0] := by
  unfold linspaceInt linspaceFloat
  rw [if_pos (by omega)]
  rfl

theorem mem_linspaceInt_le {stop num i : Nat} (hs : (stop : ℚ) ≤ 2 ^ 50)
    (h : i ∈ linspaceInt stop num) : i ≤ stop := by
  unfold linspaceInt linspaceFloat at h
  by_cases hn : num ≤ 1
  · rw [if_pos hn] at h
    obtain ⟨q, hq, hqv⟩ := List.mem_map.mp h
    obtain ⟨k, hk, hkv⟩ := List.mem_map.mp hq
    subst hqv
    rw [← hkv]
    simp
  · rw [if_neg hn] at h
    obtain ⟨q, hq, hqv⟩ := List.mem_map.mp h
    obtain ⟨k, hk, hkv⟩ := List.mem_map.mp hq
    have hk2 := List.mem_range.mp hk
    subst hqv
    by_cases hlast : k = num - 1
    · rw [if_pos hlast] at hkv
      rw [← hkv, Int.floor_natCast, Int.toNat_natCast]
    · rw [if_neg hlast] at hkv
      subst hkv
      set d : ℚ := ((num - 1 : Nat) : ℚ) with hd
      have hdpos : (0:ℚ) < d := by
        rw [hd]
        exact_mod_cast Nat.pos_of_ne_zero (by omega)
      have hkle : (k : ℚ) ≤ d - 1 := by
        have h1 : ((k + 1 : Nat) : ℚ) ≤ d := by
          rw [hd]
          exact_mod_cast (by omega : k + 1 ≤ num - 1)
        push_cast at h1
        linarith
      set s0 : ℚ := (stop : ℚ) / d with hs0def
      have hs0 : (0:ℚ) ≤ s0 := by positivity
      have hstepnn : 0 ≤ fl64 s0 := fl64_nonneg hs0
      have hstep : fl64 s0 ≤ s0 + s0 / 2 ^ 52 := fl64_le hs0
      have hds0 : (d - 1) * s0 ≤ (stop : ℚ) := by
        have e1 : (d - 1) * s0 ≤ d * s0 :=
          mul_le_mul_of_nonneg_right (by linarith) hs0
        have e2 : d * s0 = (stop : ℚ) := by
          rw [hs0def, mul_comm, div_mul_cancel₀ _ (ne_of_gt hdpos)]
        linarith
      have hdm1 : (0:ℚ) ≤ d - 1 := le_trans (Nat.cast_nonneg k) hkle
      have hx1 : (k : ℚ) * fl64 s0 ≤ (d - 1) * fl64 s0 :=
        mul_le_mul_of_nonneg_right hkle hstepnn
      have hx2 : (d - 1) * fl64 s0 ≤ (d - 1) * (s0 + s0 / 2 ^ 52) :=
        mul_le_mul_of_nonneg_left hstep hdm1
      have hx3 : (d - 1) * (s0 + s0 / 2 ^ 52) ≤ (stop : ℚ) + (stop : ℚ) / 2 ^ 52 := by
        have e1 : (d - 1) * (s0 + s0 / 2 ^ 52) = (d - 1) * s0 + ((d - 1) * s0) / 2 ^ 52 := by
          ring
        have e2 : ((d - 1) * s0) / 2 ^ 52 ≤ (stop : ℚ) / 2 ^ 52 := by
          gcongr
        linarith
      have hxnn : (0:ℚ) ≤ (k : ℚ) * fl64 s0 := mul_nonneg (Nat.cast_nonneg k) hstepnn
      have hx : (k : ℚ) * fl64 s0 ≤ (stop : ℚ) + (stop : ℚ) / 2 ^ 52 := by
        linarith
      have hfl : fl64 ((k : ℚ) * fl64 s0) ≤
          ((k : ℚ) * fl64 s0) + ((k : ℚ) * fl64 s0) / 2 ^ 52 := fl64_le hxnn
      have b1 : (stop : ℚ) / 2 ^ 52 ≤ 1/4 := by
        rw [div_le_iff₀ (by positivity)]
        nlinarith
      have b2 : ((k : ℚ) * fl64 s0) / 2 ^ 52 ≤ 1/2 := by
        rw [div_le_iff₀ (by positivity)]
        nlinarith
      have hlt : fl64 ((k : ℚ) * fl64 s0) < (stop : ℚ) + 1 := by
        linarith
      have hfloor : ⌊fl64 ((k : ℚ) * fl64 s0)⌋ ≤ (stop : ℤ) := by
        have h1 : ⌊fl64 ((k : ℚ) * fl64 s0)⌋ < (stop : ℤ) + 1 := by
          apply Int.floor_lt.mpr
          push_cast
          exact hlt
        omega
      exact Int.toNat_le.mpr hfloor

/-- The one-ulp effect: at full length 1526 and target length 46 the
exact interpolant at position 27 is the integer 915 (1525 * 27 / 45 =
915 exactly), but the double-precision product falls one ulp below it,
so the code selects index 914. -/
theorem linspaceInt_ulp_example :
    (linspaceInt 1525 46)[27]? = some 914 ∧ 1525 * 27 / 45 = 915 := by
  refine ⟨?_, by norm_num⟩
  rw [linspaceInt_getElem (by norm_num) (by norm_num),
    show ((46 - 1 : Nat) : ℚ) = 45 from by norm_num,
    fl64_eq_cert (q := ((1525:ℕ):ℚ) / 45) 5 4769437105375004
      (by norm_num) (by norm_num) (by norm_num)
      (roundNearestEven_eq_of_lt_half 4769437105375004 (by norm_num) (by norm_num)),
    fl64_eq_cert (q := ((27:ℕ):ℚ) * (((4769437105375004:ℤ):ℚ) * 2 ^ ((5:ℤ) - 52)))
      9 8048425115320319 (by norm_num) (by norm_num) (by norm_num)
      (roundNearestEven_eq_of_lt_half 8048425115320319 (by norm_num) (by norm_num)),
    show ⌊((8048425115320319:ℤ):ℚ) * 2 ^ ((9:ℤ) - 52)⌋ = (914:ℤ) from
      Int.floor_eq_iff.mpr (by norm_num)]
  rfl

theorem fancyIndex_of_bounds {α : Type} {xs : List α} {idx : List Nat}
    (h : ∀ i ∈ idx, i < xs.length) :
    fancyIndex xs idx = Except.ok (idx.filterMap (fun i => xs[i]?)) := by
  unfold fancyIndex
  rw [if_pos]
  rw [List.all_eq_true]
  intro i hi
  exact decide_eq_true (h i hi)

theorem length_filterMap_getElem {α : Type} {xs : List α} {idx : List Nat}
    (h : ∀ i ∈ idx, i < xs.length) :
    (idx.filterMap (fun i => xs[i]?)).length = idx.length := by
  induction idx with
  | nil => rfl
  | cons a l ih =>
    have ha : a < xs.length := h a (List.mem_cons_self a l)
    rw [List.filterMap_cons, List.getElem?_eq_getElem ha]
    simp only [List.length_cons]
    rw [ih (fun i hi => h i (List.mem_cons_of_mem a hi))]

/-- Deterministic-mode characterization of SamplerTransform.call: when
the sample has the asserted full lengths and each resolved target length
is within bounds, the call succeeds, subsampling each modality at the
linspaceInt indices and fixing the resolved target lengths in the
transform state. -/
theorem call_det {A F T L : Type} {x : Sample A F T L} {s : SamplerTransform}
    (dA dF dT : List Nat)
    (hA : x.audio.length = 1526) (hF : x.face.length = 459) (hT : x.text.length = 60)
    (hR : s.is_random = false)
    (h1 : s.srA.getD 1526 ≤ 1526) (h2 : s.srF.getD 459 ≤ 459) (h3 : s.srT.getD 60 ≤ 60) :
    SamplerTransform.call s x dA dF dT = Except.ok
      (⟨(linspaceInt 1525 (s.srA.getD 1526)).filterMap (fun i => x.audio[i]?),
        (linspaceInt 458 (s.srF.getD 459)).filterMap (fun i => x.face[i]?),
        (linspaceInt 59 (s.srT.getD 60)).filterMap (fun i => x.text[i]?), x.label⟩,
       ⟨some (s.srA.getD 1526), some (s.srF.getD 459), some (s.srT.getD 60), s.is_random⟩) := by
  have ea : fancyIndex x.audio (linspaceInt (1526 - 1) (s.srA.getD 1526)) =
      Except.ok ((linspaceInt (1526 - 1) (s.srA.getD 1526)).filterMap (fun i => x.audio[i]?)) :=
    fancyIndex_of_bounds (fun i hi => by have := mem_linspaceInt_le (by norm_num) hi; omega)
  have ef : fancyIndex x.face (linspaceInt (459 - 1) (s.srF.getD 459)) =
      Except.ok ((linspaceInt (459 - 1) (s.srF.getD 459)).filterMap (fun i => x.face[i]?)) :=
    fancyIndex_of_bounds (fun i hi => by have := mem_linspaceInt_le (by norm_num) hi; omega)
  have et : fancyIndex x.text (linspaceInt (60 - 1) (s.srT.getD 60)) =
      Except.ok ((linspaceInt (60 - 1) (s.srT.getD 60)).filterMap (fun i => x.text[i]?)) :=
    fancyIndex_of_bounds (fun i hi => by have := mem_linspaceInt_le (by norm_num) hi; omega)
  unfold SamplerTransform.call
  simp only [hA, hF, hT, hR, eq_self_iff_true, if_true, if_pos h1, if_pos h2, if_pos h3,
    bind, Except.bind, ea, ef, et]

/-- C1. Deterministic resampling, amended: for full-length samples and
in-range target lengths the call succeeds and selects, per modality, the
linspaceInt indices, which numpy produces by computing the step
(full_length - 1)/(sr - 1) once in double precision, multiplying it by
each position in double precision, and TRUNCATING the product toward
zero (not rounding it to the nearest index; the float64 product can even
sit one ulp below the exact interpolant, shifting a truncated index down
by one); index 0 is always selected first, for target lengths of at
least 2 the last selected index is exactly full_length - 1 (numpy writes
the right endpoint explicitly), while target length 1 selects only index
0; and a second call with the updated transform state returns the
identical selection. -/
theorem C1_deterministic_resample {A F T L : Type} (x : Sample A F T L)
    (s : SamplerTransform) (dA dF dT dA2 dF2 dT2 : List Nat)
    (hA : x.audio.length = 1526) (hF : x.face.length = 459) (hT : x.text.length = 60)
    (hR : s.is_random = false)
    (h1 : s.srA.getD 1526 ≤ 1526) (h2 : s.srF.getD 459 ≤ 459) (h3 : s.srT.getD 60 ≤ 60) :
    ∃ y s2, SamplerTransform.call s x dA dF dT = Except.ok (y, s2)
      ∧ y.audio = (linspaceInt 1525 (s.srA.getD 1526)).filterMap (fun i => x.audio[i]?)
      ∧ y.face = (linspaceInt 458 (s.srF.getD 459)).filterMap (fun i => x.face[i]?)
      ∧ y.text = (linspaceInt 59 (s.srT.getD 60)).filterMap (fun i => x.text[i]?)
      ∧ (∀ stop num, (linspaceInt stop num).length = num)
      ∧ (∀ (stop num i : Nat), 2 ≤ num → i < num - 1 →
          (linspaceInt stop num)[i]? =
            some (⌊fl64 ((i : ℚ) * fl64 ((stop : ℚ) / ((num - 1 : Nat) : ℚ)))⌋.toNat))
      ∧ (∀ stop num, 2 ≤ num →
          (linspaceInt stop num)[0]? = some 0 ∧ (linspaceInt stop num)[num - 1]? = some stop)
      ∧ (∀ stop, linspaceInt stop 1 = [0])
      ∧ SamplerTransform.call s2 x dA2 dF2 dT2 = Except.ok (y, s2) := by
  refine ⟨_, _, call_det dA dF dT hA hF hT hR h1 h2 h3, rfl, rfl, rfl,
    length_linspaceInt, ?_, ?_, linspaceInt_single, ?_⟩
  · intro stop num i hn hi
    exact linspaceInt_getElem hn hi
  · intro stop num hn
    exact ⟨linspaceInt_first hn, linspaceInt_last hn⟩
  · rw [call_det dA2 dF2 dT2 hA hF hT (by simpa using hR) (by simpa using h1)
      (by simpa using h2) (by simpa using h3)]
    simp [hR]

/-- C1, counterexample to the claim as stated: with full length 1526 and
target length 4 the code selects index 1016 in third position (the
double-precision product 2 * (1525/3) is 1016.666..., truncated),
whereas rounding the interpolated value to the nearest valid index would
select 1017. -/
theorem C1_counterexample :
    (SamplerTransform.call ⟨some 4, some 2, some 2, false⟩ natSample [] [] []).map
        (fun p => p.1.audio) = Except.ok [0, 508, 1016, 1525]
    ∧ linspaceRoundNearest 1525 4 = [0, 508, 1017, 1525]
    ∧ ((Except.ok [0, 508, 1016, 1525] : Except String (List Nat)) ≠
        Except.ok [0, 508, 1017, 1525]) := by
  have hstep : fl64 (((1525:ℕ):ℚ) / 3) =
      ((8942694572578133:ℤ):ℚ) * 2 ^ ((8:ℤ) - 52) :=
    fl64_eq_cert 8 8942694572578133 (by norm_num) (by norm_num) (by norm_num)
      (roundNearestEven_eq_of_lt_half 8942694572578133 (by norm_num) (by norm_num))
  have h0k : (linspaceInt 1525 4)[0]? = some 0 := linspaceInt_first (by norm_num)
  have h1k : (linspaceInt 1525 4)[1]? = some 508 := by
    rw [linspaceInt_getElem (by norm_num) (by norm_num),
      show ((4 - 1 : Nat) : ℚ) = 3 from by norm_num, Nat.cast_one, one_mul, hstep,
      fl64_eq_cert (q := ((8942694572578133:ℤ):ℚ) * 2 ^ ((8:ℤ) - 52)) 8 8942694572578133
        (by norm_num) (by norm_num) (by norm_num)
        (roundNearestEven_eq_of_lt_half 8942694572578133 (by norm_num) (by norm_num)),
      show ⌊((8942694572578133:ℤ):ℚ) * 2 ^ ((8:ℤ) - 52)⌋ = (508:ℤ) from
        Int.floor_eq_iff.mpr (by norm_num)]
    rfl
  have h2k : (linspaceInt 1525 4)[2]? = some 1016 := by
    rw [linspaceInt_getElem (by norm_num) (by norm_num),
      show ((4 - 1 : Nat) : ℚ) = 3 from by norm_num, hstep,
      fl64_eq_cert (q := ((2:ℕ):ℚ) * (((8942694572578133:ℤ):ℚ) * 2 ^ ((8:ℤ) - 52)))
        9 8942694572578133 (by norm_num) (by norm_num) (by norm_num)
        (roundNearestEven_eq_of_lt_half 8942694572578133 (by norm_num) (by norm_num)),
      show ⌊((8942694572578133:ℤ):ℚ) * 2 ^ ((9:ℤ) - 52)⌋ = (1016:ℤ) from
        Int.floor_eq_iff.mpr (by norm_num)]
    rfl
  have h3k : (linspaceInt 1525 4)[3]? = some 1525 := by
    have h : (linspaceInt 1525 4)[4 - 1]? = some 1525 := linspaceInt_last (by norm_num)
    exact h
  have hlin : linspaceInt 1525 4 = [0, 508, 1016, 1525] := by
    apply List.ext_getElem?
    intro n
    rcases n with _ | _ | _ | _ | n
    · exact h0k
    · exact h1k
    · exact h2k
    · exact h3k
    · rw [List.getElem?_eq_none (by rw [length_linspaceInt]; omega),
        List.getElem?_eq_none (by simp)]
  refine ⟨?_, by decide, by decide⟩
  rw [call_det (x := natSample) [] [] [] (by simp [natSample]) (by simp [natSample])
    (by simp [natSample]) rfl (by decide) (by decide) (by decide)]
  simp only [Except.map, Option.getD_some, hlin, natSample]
  decide

/-- C1, witness: a concrete deterministic transform with target lengths
10, unset, and 60 applied to the index-valued full-length sample. -/
theorem C1_witness :
    ∃ y s2, SamplerTransform.call ⟨some 10, none, some 60, false⟩ natSample [] [] []
        = Except.ok (y, s2)
      ∧ y.audio = (linspaceInt 1525 ((some 10).getD 1526)).filterMap
          (fun i => natSample.audio[i]?)
      ∧ y.face = (linspaceInt 458 ((none : Option Nat).getD 459)).filterMap
          (fun i => natSample.face[i]?)
      ∧ y.text = (linspaceInt 59 ((some 60).getD 60)).filterMap
          (fun i => natSample.text[i]?)
      ∧ (∀ stop num, (linspaceInt stop num).length = num)
      ∧ (∀ (stop num i : Nat), 2 ≤ num → i < num - 1 →
          (linspaceInt stop num)[i]? =
            some (⌊fl64 ((i : ℚ) * fl64 ((stop : ℚ) / ((num - 1 : Nat) : ℚ)))⌋.toNat))
      ∧ (∀ stop num, 2 ≤ num →
          (linspaceInt stop num)[0]? = some 0 ∧ (linspaceInt stop num)[num - 1]? = some stop)
      ∧ (∀ stop, linspaceInt stop 1 = [0])
      ∧ SamplerTransform.call s2 natSample [] [] [] = Except.ok (y, s2) :=
  C1_deterministic_resample natSample ⟨some 10, none, some 60, false⟩ [] [] [] [] [] []
    (by simp [natSample]) (by simp [natSample]) (by simp [natSample]) rfl
    (by decide) (by decide) (by decide)

theorem nodup_length_le {l : List Nat} {n : Nat} (hnd : l.Nodup) (hlt : ∀ i ∈ l, i < n) :
    l.length ≤ n := by
  have h1 : l.toFinset.card = l.length := List.toFinset_card_of_nodup hnd
  have h2 : l.toFinset ⊆ Finset.range n := by
    intro i hi
    rw [Finset.mem_range]
    exact hlt i (List.mem_toFinset.mp hi)
  have h3 := Finset.card_le_card h2
  rw [h1, Finset.card_range] at h3
  exact h3

theorem npSort_perm (l : List Nat) : (npSort l).Perm l :=
  List.perm_insertionSort _ l

theorem npSort_length (l : List Nat) : (npSort l).length = l.length :=
  List.length_insertionSort _ l

theorem npSort_mem_iff {l : List Nat} {i : Nat} : i ∈ npSort l ↔ i ∈ l :=
  (npSort_perm l).mem_iff

theorem npSort_pairwise_lt {l : List Nat} (hnd : l.Nodup) :
    List.Pairwise (fun a b => a < b) (npSort l) := by
  have hs : List.Sorted (· ≤ ·) (npSort l) := List.sorted_insertionSort _ l
  have hn : (npSort l).Nodup := (npSort_perm l).nodup_iff.mpr hnd
  exact (hs.and hn).imp (fun h => lt_of_le_of_ne h.1 h.2)

/-- Random-mode characterization of SamplerTransform.call: when the
resolved target lengths fit the choice populations and the draws are in
range, the call succeeds, subsampling each modality at the sorted draw. -/
theorem call_random {A F T L : Type} {x : Sample A F T L} {s : SamplerTransform}
    {dA dF dT : List Nat}
    (hA : x.audio.length = 1526) (hF : x.face.length = 459) (hT : x.text.length = 60)
    (hR : s.is_random = true)
    (hkA : s.srA.getD 1526 ≤ 1525) (hkF : s.srF.getD 459 ≤ 458) (hkT : s.srT.getD 60 ≤ 59)
    (hbA : ∀ i ∈ dA, i < 1525) (hbF : ∀ i ∈ dF, i < 458) (hbT : ∀ i ∈ dT, i < 59) :
    SamplerTransform.call s x dA dF dT = Except.ok
      (⟨(npSort dA).filterMap (fun i => x.audio[i]?),
        (npSort dF).filterMap (fun i => x.face[i]?),
        (npSort dT).filterMap (fun i => x.text[i]?), x.label⟩,
       ⟨some (s.srA.getD 1526), some (s.srF.getD 459), some (s.srT.getD 60), s.is_random⟩) := by
  have ca : npChoiceNoReplace (1526 - 1) (s.srA.getD 1526) dA = Except.ok dA := by
    unfold npChoiceNoReplace
    rw [if_pos (by omega)]
  have cf : npChoiceNoReplace (459 - 1) (s.srF.getD 459) dF = Except.ok dF := by
    unfold npChoiceNoReplace
    rw [if_pos (by omega)]
  have ct : npChoiceNoReplace (60 - 1) (s.srT.getD 60) dT = Except.ok dT := by
    unfold npChoiceNoReplace
    rw [if_pos (by omega)]
  have ea : fancyIndex x.audio (npSort dA) =
      Except.ok ((npSort dA).filterMap (fun i => x.audio[i]?)) :=
    fancyIndex_of_bounds (fun i hi => by
      have := hbA i (npSort_mem_iff.mp hi); omega)
  have ef : fancyIndex x.face (npSort dF) =
      Except.ok ((npSort dF).filterMap (fun i => x.face[i]?)) :=
    fancyIndex_of_bounds (fun i hi => by
      have := hbF i (npSort_mem_iff.mp hi); omega)
  have et : fancyIndex x.text (npSort dT) =
      Except.ok ((npSort dT).filterMap (fun i => x.text[i]?)) :=
    fancyIndex_of_bounds (fun i hi => by
      have := hbT i (npSort_mem_iff.mp hi); omega)
  unfold SamplerTransform.call
  simp only [hA, hF, hT, hR, eq_self_iff_true, if_true,
    if_pos (show s.srA.getD 1526 ≤ 1526 by omega),
    if_pos (show s.srF.getD 459 ≤ 459 by omega),
    if_pos (show s.srT.getD 60 ≤ 60 by omega),
    Bool.true_eq_false, if_false, ca, cf, ct, ea, ef, et, bind, Except.bind]

/-- C3. Randomized resampling: for any draws that a real
np.random.choice(full - 1, target, replace=False) call can return for
the three modalities, the call succeeds; each modality is subsampled at
the ascending sort of its draw, whose length is exactly the target
length, which is strictly ascending, all of whose members lie below
full_length - 1, and which therefore never contains the last index.
Independence across calls is captured by quantifying over the draws: a
later call is the same theorem at its own draw. -/
theorem C3_randomized_resample {A F T L : Type} (x : Sample A F T L)
    (s : SamplerTransform) (dA dF dT : List Nat)
    (hA : x.audio.length = 1526) (hF : x.face.length = 459) (hT : x.text.length = 60)
    (hR : s.is_random = true)
    (hdA : validDraw 1525 (s.srA.getD 1526) dA)
    (hdF : validDraw 458 (s.srF.getD 459) dF)
    (hdT : validDraw 59 (s.srT.getD 60) dT) :
    ∃ y s2, SamplerTransform.call s x dA dF dT = Except.ok (y, s2)
      ∧ y.audio = (npSort dA).filterMap (fun i => x.audio[i]?)
      ∧ y.face = (npSort dF).filterMap (fun i => x.face[i]?)
      ∧ y.text = (npSort dT).filterMap (fun i => x.text[i]?)
      ∧ y.audio.length = s.srA.getD 1526
      ∧ y.face.length = s.srF.getD 459
      ∧ y.text.length = s.srT.getD 60
      ∧ List.Pairwise (fun a b => a < b) (npSort dA)
      ∧ List.Pairwise (fun a b => a < b) (npSort dF)
      ∧ List.Pairwise (fun a b => a < b) (npSort dT)
      ∧ (∀ i ∈ npSort dA, i < 1525)
      ∧ (∀ i ∈ npSort dF, i < 458)
      ∧ (∀ i ∈ npSort dT, i < 59)
      ∧ 1525 ∉ npSort dA ∧ 458 ∉ npSort dF ∧ 59 ∉ npSort dT := by
  obtain ⟨hlA, hndA, hbA⟩ := hdA
  obtain ⟨hlF, hndF, hbF⟩ := hdF
  obtain ⟨hlT, hndT, hbT⟩ := hdT
  have hkA : s.srA.getD 1526 ≤ 1525 := hlA ▸ nodup_length_le hndA hbA
  have hkF : s.srF.getD 459 ≤ 458 := hlF ▸ nodup_length_le hndF hbF
  have hkT : s.srT.getD 60 ≤ 59 := hlT ▸ nodup_length_le hndT hbT
  have mbA : ∀ i ∈ npSort dA, i < 1525 := fun i hi => hbA i (npSort_mem_iff.mp hi)
  have mbF : ∀ i ∈ npSort dF, i < 458 := fun i hi => hbF i (npSort_mem_iff.mp hi)
  have mbT : ∀ i ∈ npSort dT, i < 59 := fun i hi => hbT i (npSort_mem_iff.mp hi)
  refine ⟨_, _, call_random hA hF hT hR hkA hkF hkT hbA hbF hbT, rfl, rfl, rfl,
    ?_, ?_, ?_, npSort_pairwise_lt hndA, npSort_pairwise_lt hndF, npSort_pairwise_lt hndT,
    mbA, mbF, mbT, fun hc => absurd (mbA 1525 hc) (by omega),
    fun hc => absurd (mbF 458 hc) (by omega), fun hc => absurd (mbT 59 hc) (by omega)⟩
  · rw [length_filterMap_getElem (fun i hi => by have := mbA i hi; omega),
      npSort_length, hlA]
  · rw [length_filterMap_getElem (fun i hi => by have := mbF i hi; omega),
      npSort_length, hlF]
  · rw [length_filterMap_getElem (fun i hi => by have := mbT i hi; omega),
      npSort_length, hlT]

/-- C3, witness: a concrete randomized transform with target lengths
3, 2, 1 and in-range distinct draws on the index-valued sample. -/
theorem C3_witness :
    ∃ y s2, SamplerTransform.call ⟨some 3, some 2, some 1, true⟩ natSample [5, 0, 8] [7, 2] [0]
        = Except.ok (y, s2)
      ∧ y.audio = (npSort [5, 0, 8]).filterMap (fun i => natSample.audio[i]?)
      ∧ y.face = (npSort [7, 2]).filterMap (fun i => natSample.face[i]?)
      ∧ y.text = (npSort [0]).filterMap (fun i => natSample.text[i]?)
      ∧ y.audio.length = ((some 3).getD 1526 : Nat)
      ∧ y.face.length = ((some 2).getD 459 : Nat)
      ∧ y.text.length = ((some 1).getD 60 : Nat)
      ∧ List.Pairwise (fun a b => a < b) (npSort [5, 0, 8])
      ∧ List.Pairwise (fun a b => a < b) (npSort [7, 2])
      ∧ List.Pairwise (fun a b => a < b) (npSort [0])
      ∧ (∀ i ∈ npSort [5, 0, 8], i < 1525)
      ∧ (∀ i ∈ npSort [7, 2], i < 458)
      ∧ (∀ i ∈ npSort [0], i < 59)
      ∧ 1525 ∉ npSort [5, 0, 8] ∧ 458 ∉ npSort [7, 2] ∧ 59 ∉ npSort [0] :=
  C3_randomized_resample natSample ⟨some 3, some 2, some 1, true⟩ [5, 0, 8] [7, 2] [0]
    (by simp [natSample]) (by simp [natSample]) (by simp [natSample]) rfl
    (by decide) (by decide) (by decide)

/-- C4. Target-length validation: whenever some resolved target length
strictly exceeds its modality's full length, the call stops with the
corresponding assertion error, in either sampling mode, before any
subsampled tensor is produced. -/
theorem C4_target_length_assert {A F T L : Type} (x : Sample A F T L)
    (s : SamplerTransform) (dA dF dT : List Nat)
    (hA : x.audio.length = 1526) (hF : x.face.length = 459) (hT : x.text.length = 60)
    (h : 1526 < s.srA.getD 1526 ∨ 459 < s.srF.getD 459 ∨ 60 < s.srT.getD 60) :
    SamplerTransform.call s x dA dF dT = Except.error "AssertionError: srA <= al"
    ∨ SamplerTransform.call s x dA dF dT = Except.error "AssertionError: srF <= fl"
    ∨ SamplerTransform.call s x dA dF dT = Except.error "AssertionError: srT <= tl" := by
  unfold SamplerTransform.call
  simp only [hA, hF, hT, eq_self_iff_true, if_true]
  by_cases c1 : s.srA.getD 1526 ≤ 1526
  · rw [if_pos c1]
    by_cases c2 : s.srF.getD 459 ≤ 459
    · rw [if_pos c2]
      rw [if_neg (show ¬ s.srT.getD 60 ≤ 60 by omega)]
      right; right; rfl
    · rw [if_neg c2]
      right; left; rfl
  · rw [if_neg c1]
    left; rfl

/-- C4, witness: requesting audio target length 2000 against full length
1526 raises the audio assertion. -/
theorem C4_witness :
    SamplerTransform.call ⟨some 2000, none, none, false⟩ natSample [] [] []
        = Except.error "AssertionError: srA <= al"
    ∨ SamplerTransform.call ⟨some 2000, none, none, false⟩ natSample [] [] []
        = Except.error "AssertionError: srF <= fl"
    ∨ SamplerTransform.call ⟨some 2000, none, none, false⟩ natSample [] [] []
        = Except.error "AssertionError: srT <= tl" :=
  C4_target_length_assert natSample ⟨some 2000, none, none, false⟩ [] [] []
    (by simp [natSample]) (by simp [natSample]) (by simp [natSample]) (by decide)

/-- C10. In randomized mode a resolved target length equal to its
modality's full length (in particular one left unset and lazily fixed to
the full length) passes the target-length assertions yet makes every
call fail with numpy's too-large-sample error, because the choice
population excludes the last index: no sample can be produced. -/
theorem C10_random_full_length_always_fails {A F T L : Type} (x : Sample A F T L)
    (s : SamplerTransform) (dA dF dT : List Nat)
    (hA : x.audio.length = 1526) (hF : x.face.length = 459) (hT : x.text.length = 60)
    (hR : s.is_random = true)
    (hsA : s.srA.getD 1526 ≤ 1526) (hsF : s.srF.getD 459 ≤ 459) (hsT : s.srT.getD 60 ≤ 60)
    (h : s.srA.getD 1526 = 1526 ∨ s.srF.getD 459 = 459 ∨ s.srT.getD 60 = 60) :
    SamplerTransform.call s x dA dF dT =
      Except.error "ValueError: Cannot take a larger sample than population when replace=False" := by
  unfold SamplerTransform.call
  simp only [hA, hF, hT, hR, eq_self_iff_true, if_true, if_pos hsA, if_pos hsF, if_pos hsT,
    Bool.true_eq_false, if_false]
  by_cases cA : s.srA.getD 1526 = 1526
  · have eA : npChoiceNoReplace (1526 - 1) (s.srA.getD 1526) dA =
        Except.error "ValueError: Cannot take a larger sample than population when replace=False" := by
      unfold npChoiceNoReplace
      rw [if_neg (by omega)]
    simp only [eA, bind, Except.bind]
  · have okA : npChoiceNoReplace (1526 - 1) (s.srA.getD 1526) dA = Except.ok dA := by
      unfold npChoiceNoReplace
      rw [if_pos (by omega)]
    by_cases cF : s.srF.getD 459 = 459
    · have eF : npChoiceNoReplace (459 - 1) (s.srF.getD 459) dF =
          Except.error "ValueError: Cannot take a larger sample than population when replace=False" := by
        unfold npChoiceNoReplace
        rw [if_neg (by omega)]
      simp only [okA, eF, bind, Except.bind]
    · have okF : npChoiceNoReplace (459 - 1) (s.srF.getD 459) dF = Except.ok dF := by
        unfold npChoiceNoReplace
        rw [if_pos (by omega)]
      have cT : s.srT.getD 60 = 60 := by
        rcases h with h1 | h2 | h3
        · exact absurd h1 cA
        · exact absurd h2 cF
        · exact h3
      have eT : npChoiceNoReplace (60 - 1) (s.srT.getD 60) dT =
          Except.error "ValueError: Cannot take a larger sample than population when replace=False" := by
        unfold npChoiceNoReplace
        rw [if_neg (by omega)]
      simp only [okA, okF, eT, bind, Except.bind]

/-- C10, witness: an unset audio target length resolves to the full 1526
and every randomized call fails with the numpy error. -/
theorem C10_witness :
    SamplerTransform.call ⟨none, some 1, some 1, true⟩ natSample [] [] [] =
      Except.error "ValueError: Cannot take a larger sample than population when replace=False" :=
  C10_random_full_length_always_fails natSample ⟨none, some 1, some 1, true⟩ [] [] []
    (by simp [natSample]) (by simp [natSample]) (by simp [natSample]) rfl
    (by decide) (by decide) (by decide) (by decide)

theorem getD_map {α β : Type} {f : α → β} {l : List α} {i : Nat} (d : β) (d2 : α)
    (hi : i < l.length) : (l.map f).getD i d = f (l.getD i d2) := by
  rw [List.getD_eq_getElem?_getD, List.getElem?_map, List.getElem?_eq_getElem hi]
  rw [List.getD_eq_getElem?_getD, List.getElem?_eq_getElem hi]
  rfl

theorem normRow_getD {mean std row : List ℚ} {d : Nat} (hd : d < row.length) :
    (normRow mean std row).getD d 0 = (row.getD d 0 - mean.getD d 0) / std.getD d 0 := by
  unfold normRow
  rw [List.getD_eq_getElem?_getD, List.getElem?_map, List.getElem?_range hd]
  rfl

theorem normRow_length (mean std row : List ℚ) : (normRow mean std row).length = row.length := by
  unfold normRow
  rw [List.length_map, List.length_range]

theorem at3_normalizeWith {mean std : List ℚ} {x : Arr3} {i j d : Nat}
    (hi : i < x.length) (hj : j < (x.getD i []).length)
    (hd : d < ((x.getD i []).getD j []).length) :
    at3 (normalizeWith mean std x) i j d = (at3 x i j d - mean.getD d 0) / std.getD d 0 := by
  unfold at3 normalizeWith
  rw [getD_map ([] : Arr2) ([] : Arr2) hi, getD_map ([] : List ℚ) ([] : List ℚ) hj,
    normRow_getD hd]

/-- C2. Audio normalization: the train split computes the D-length mean
and std vectors jointly over the sample and time axes of its own raw
stacked array, normalizes with them and persists array and statistics;
the valid and test splits fail with FileNotFoundError when the train
artifact is absent, and otherwise apply exactly the loaded train
statistics, persisting only the normalized array; the transform is the
elementwise affine map (x - mean) / std with no epsilon guard on std. -/
theorem C2_normalization (sqrtQ : ℚ → ℚ) (x : Arr3) (fs : FS) :
    (_normalize_lld_audio sqrtQ .train x fs =
        Except.ok (normalizeWith (npMean x) (npStd sqrtQ x) x,
          { fs with train_audio := some ⟨normalizeWith (npMean x) (npStd sqrtQ x) x,
              npMean x, npStd sqrtQ x⟩ })
      ∧ (npMean x).length = featDim x ∧ (npStd sqrtQ x).length = featDim x
      ∧ (∀ d, d < featDim x →
          (npMean x).getD d 0 = sumFeat x d / ((x.length : ℚ) * (timeLen x : ℚ))
          ∧ (npStd sqrtQ x).getD d 0 = sqrtQ ((npVar x).getD d 0)
          ∧ (npVar x).getD d 0 =
              sumSqDev x ((npMean x).getD d 0) d / ((x.length : ℚ) * (timeLen x : ℚ))))
    ∧ (fs.train_audio = none →
        _normalize_lld_audio sqrtQ .valid x fs = Except.error "FileNotFoundError: train_audio.pkl"
        ∧ _normalize_lld_audio sqrtQ .test x fs = Except.error "FileNotFoundError: train_audio.pkl")
    ∧ (∀ t, fs.train_audio = some t →
        _normalize_lld_audio sqrtQ .valid x fs = Except.ok (normalizeWith t.mean t.std x,
          { fs with valid_audio := some (normalizeWith t.mean t.std x) })
        ∧ _normalize_lld_audio sqrtQ .test x fs = Except.ok (normalizeWith t.mean t.std x,
          { fs with test_audio := some (normalizeWith t.mean t.std x) }))
    ∧ (∀ mean std i j d, i < x.length → j < (x.getD i []).length →
        d < ((x.getD i []).getD j []).length →
        at3 (normalizeWith mean std x) i j d = (at3 x i j d - mean.getD d 0) / std.getD d 0) := by
  refine ⟨⟨rfl, by simp [npMean, featDim], by simp [npStd, npVar, featDim], ?_⟩, ?_, ?_, ?_⟩
  · intro d hd
    refine ⟨?_, ?_, ?_⟩
    · unfold npMean
      rw [List.getD_eq_getElem?_getD, List.getElem?_map, List.getElem?_range hd]
      rfl
    · unfold npStd
      have hd2 : d < (npVar x).length := by simpa [npVar] using hd
      rw [getD_map (0 : ℚ) (0 : ℚ) hd2]
    · unfold npVar
      rw [List.getD_eq_getElem?_getD, List.getElem?_map, List.getElem?_range hd]
      rfl
  · intro h
    constructor
    · unfold _normalize_lld_audio
      rw [h]
    · unfold _normalize_lld_audio
      rw [h]
  · intro t h
    constructor
    · unfold _normalize_lld_audio
      rw [h]
    · unfold _normalize_lld_audio
      rw [h]
  · intro mean std i j d hi hj hd
    exact at3_normalizeWith hi hj hd

theorem faceSlot_setFaceSlot (split : Split) (fs : FS) (a : Option Arr3) :
    faceSlot split (setFaceSlot split fs a) = a := by
  cases split <;> rfl

theorem textSlot_setTextSlot (split : Split) (fs : FS) (a : Option Arr3) :
    textSlot split (setTextSlot split fs a) = a := by
  cases split <;> rfl

theorem audioSlot_normalize {sqrtQ : ℚ → ℚ} {split : Split} {x : Arr3} {fs : FS}
    {r : Arr3 × FS} (h : _normalize_lld_audio sqrtQ split x fs = Except.ok r) :
    audioSlot split r.2 = some r.1 := by
  cases split
  · unfold _normalize_lld_audio at h
    injection h with h2
    rw [← h2]
    rfl
  · unfold _normalize_lld_audio at h
    cases hfs : fs.train_audio with
    | none =>
      rw [hfs] at h
      cases h
    | some t =>
      rw [hfs] at h
      injection h with h2
      rw [← h2]
      rfl
  · unfold _normalize_lld_audio at h
    cases hfs : fs.train_audio with
    | none =>
      rw [hfs] at h
      cases h
    | some t =>
      rw [hfs] at h
      injection h with h2
      rw [← h2]
      rfl

/-- C5. Caching contract, per modality artifact: when the cache already
holds the artifact, the loader returns it verbatim with the cache
unchanged and without recomputing from the raw per-sample files (the
result is the same for any raw inputs and any video list); and a
compute-persist miss followed by a reload yields exactly the array the
miss returned, with the cache unchanged by the reload. -/
theorem C5_cache_idempotence {K : Type} (sqrtQ f32 : ℚ → ℚ) (raw raw2 : RawData K)
    (split : Split) (videos videos2 : List K) (fs : FS) :
    (∀ a, audioSlot split fs = some a →
        _get_lld_audio sqrtQ f32 raw split videos fs = Except.ok (mapF32 f32 a, fs)
        ∧ _get_lld_audio sqrtQ f32 raw2 split videos2 fs
            = _get_lld_audio sqrtQ f32 raw split videos fs)
    ∧ (∀ a, faceSlot split fs = some a →
        _get_resnet18_face raw split videos fs = Except.ok (a, fs)
        ∧ _get_resnet18_face raw2 split videos2 fs = _get_resnet18_face raw split videos fs)
    ∧ (∀ a, textSlot split fs = some a →
        _get_bert_text raw split videos fs = Except.ok (a, fs)
        ∧ _get_bert_text raw2 split videos2 fs = _get_bert_text raw split videos fs)
    ∧ (∀ res fs2, audioSlot split fs = none →
        _get_lld_audio sqrtQ f32 raw split videos fs = Except.ok (res, fs2) →
        _get_lld_audio sqrtQ f32 raw split videos fs2 = Except.ok (res, fs2))
    ∧ (∀ res fs2, faceSlot split fs = none →
        _get_resnet18_face raw split videos fs = Except.ok (res, fs2) →
        _get_resnet18_face raw split videos fs2 = Except.ok (res, fs2))
    ∧ (∀ res fs2, textSlot split fs = none →
        _get_bert_text raw split videos fs = Except.ok (res, fs2) →
        _get_bert_text raw split videos fs2 = Except.ok (res, fs2)) := by
  refine ⟨?_, ?_, ?_, ?_, ?_, ?_⟩
  · intro a ha
    unfold _get_lld_audio
    rw [ha]
    exact ⟨rfl, rfl⟩
  · intro a ha
    unfold _get_resnet18_face
    rw [ha]
    exact ⟨rfl, rfl⟩
  · intro a ha
    unfold _get_bert_text
    rw [ha]
    exact ⟨rfl, rfl⟩
  · intro res fs2 hnone hok
    unfold _get_lld_audio at hok ⊢
    rw [hnone] at hok
    cases hc : _create_lld_audio raw split videos with
    | error e =>
      rw [hc] at hok
      simp only [bind, Except.bind] at hok
      cases hok
    | ok xnp =>
      rw [hc] at hok
      simp only [bind, Except.bind] at hok
      cases hn : _normalize_lld_audio sqrtQ split xnp fs with
      | error e =>
        rw [hn] at hok
        simp only [bind, Except.bind] at hok
        cases hok
      | ok r =>
        rw [hn] at hok
        simp only [bind, Except.bind, Except.ok.injEq, Prod.mk.injEq] at hok
        obtain ⟨hres, hfs2⟩ := hok
        rw [← hfs2, audioSlot_normalize hn, ← hres]
  · intro res fs2 hnone hok
    unfold _get_resnet18_face at hok ⊢
    rw [hnone] at hok
    cases hc : _creat_resnet18_face raw split videos with
    | error e =>
      rw [hc] at hok
      simp only [bind, Except.bind] at hok
      cases hok
    | ok xnp =>
      rw [hc] at hok
      simp only [bind, Except.bind, Except.ok.injEq, Prod.mk.injEq] at hok
      obtain ⟨hres, hfs2⟩ := hok
      rw [← hfs2, faceSlot_setFaceSlot, ← hres]
  · intro res fs2 hnone hok
    unfold _get_bert_text at hok ⊢
    rw [hnone] at hok
    cases hc : _create_bert_text raw split videos with
    | error e =>
      rw [hc] at hok
      simp only [bind, Except.bind] at hok
      cases hok
    | ok xnp =>
      rw [hc] at hok
      simp only [bind, Except.bind, Except.ok.injEq, Prod.mk.injEq] at hok
      obtain ⟨hres, hfs2⟩ := hok
      rw [← hfs2, textSlot_setTextSlot, ← hres]

theorem mapExcept_ok_of_forall {α β : Type} {f : α → Except String β} {g : α → β}
    {l : List α} (h : ∀ a ∈ l, f a = Except.ok (g a)) :
    mapExcept f l = Except.ok (l.map g) := by
  induction l with
  | nil => rfl
  | cons a l ih =>
    unfold mapExcept
    rw [h a (List.mem_cons_self a l), ih (fun b hb => h b (List.mem_cons_of_mem a hb))]
    rfl

theorem mapExcept_error_of_mem {α β : Type} {f : α → Except String β} {l : List α}
    {a : α} (ha : a ∈ l) (he : ∃ m, f a = Except.error m) :
    ∃ m, mapExcept f l = Except.error m := by
  induction l with
  | nil => cases ha
  | cons b l ih =>
    unfold mapExcept
    cases hf : f b with
    | error e =>
      refine ⟨e, ?_⟩
      simp only [bind, Except.bind]
    | ok v =>
      rcases List.mem_cons.mp ha with rfl | hal
      · obtain ⟨m, hm⟩ := he
        rw [hf] at hm
        cases hm
      · obtain ⟨m, hm⟩ := ih hal
        refine ⟨m, ?_⟩
        simp only [bind, Except.bind, hm]

/-- C6. Zero padding: a sequence of length at most the modality maximum
is extended on the trailing temporal axis to exactly that maximum, the
original rows unchanged and the appended rows all zeros; the audio and
face loaders stack the padded sequences in sample order; a sequence
longer than the maximum makes the load fail rather than truncate. -/
theorem C6_zero_padding {K : Type} (raw : RawData K) (split : Split)
    (video_dirs : List K) :
    (∀ lmax a, ((a : Arr2).length ≤ lmax →
        padSeq lmax a = Except.ok
          (a ++ List.replicate (lmax - a.length) (List.replicate (a.headD []).length 0))
        ∧ (a ++ List.replicate (lmax - a.length)
            (List.replicate (a.headD []).length 0)).length = lmax
        ∧ (a ++ List.replicate (lmax - a.length)
            (List.replicate (a.headD []).length 0)).take a.length = a
        ∧ (a ++ List.replicate (lmax - a.length)
            (List.replicate (a.headD []).length 0)).drop a.length
          = List.replicate (lmax - a.length) (List.replicate (a.headD []).length 0))
      ∧ (lmax < a.length →
        padSeq lmax a = Except.error "ValueError: index cannot contain negative values"))
    ∧ (∀ f : K → Arr2, (∀ v ∈ video_dirs, raw.audio_csv split v = some (f v)) →
        ((∀ v ∈ video_dirs, (f v).length ≤ 1526) →
          _create_lld_audio raw split video_dirs = Except.ok (video_dirs.map (fun v =>
            f v ++ List.replicate (1526 - (f v).length)
              (List.replicate ((f v).headD []).length 0))))
        ∧ ((∃ v ∈ video_dirs, 1526 < (f v).length) →
          ∃ m, _create_lld_audio raw split video_dirs = Except.error m))
    ∧ (∀ g : K → Arr2, (∀ v ∈ video_dirs, raw.face_npy split v = some (g v)) →
        ((∀ v ∈ video_dirs, (g v).length ≤ 459) →
          _creat_resnet18_face raw split video_dirs = Except.ok (video_dirs.map (fun v =>
            g v ++ List.replicate (459 - (g v).length)
              (List.replicate ((g v).headD []).length 0))))
        ∧ ((∃ v ∈ video_dirs, 459 < (g v).length) →
          ∃ m, _creat_resnet18_face raw split video_dirs = Except.error m)) := by
  have hpad : ∀ lmax (a : Arr2), a.length ≤ lmax → padSeq lmax a = Except.ok
      (a ++ List.replicate (lmax - a.length) (List.replicate (a.headD []).length 0)) := by
    intro lmax a h
    unfold padSeq
    rw [if_pos h]
  have hpadneg : ∀ lmax (a : Arr2), lmax < a.length →
      padSeq lmax a = Except.error "ValueError: index cannot contain negative values" := by
    intro lmax a h
    unfold padSeq
    rw [if_neg (by omega)]
  refine ⟨?_, ?_, ?_⟩
  · intro lmax a
    constructor
    · intro h
      refine ⟨hpad lmax a h, ?_, List.take_left a _, List.drop_left a _⟩
      rw [List.length_append, List.length_replicate]
      omega
    · exact hpadneg lmax a
  · intro f hf
    constructor
    · intro hlen
      unfold _create_lld_audio
      rw [mapExcept_ok_of_forall (g := f) (fun v hv => by rw [hf v hv])]
      simp only [bind, Except.bind]
      rw [mapExcept_ok_of_forall (g := fun a =>
        a ++ List.replicate (1526 - a.length) (List.replicate (a.headD []).length 0))
        (fun a ha => by
          obtain ⟨v, hv, rfl⟩ := List.mem_map.mp ha
          exact hpad 1526 (f v) (hlen v hv))]
      rw [List.map_map]
      rfl
    · intro hex
      obtain ⟨v, hv, hvlen⟩ := hex
      unfold _create_lld_audio
      rw [mapExcept_ok_of_forall (g := f) (fun w hw => by rw [hf w hw])]
      simp only [bind, Except.bind]
      exact mapExcept_error_of_mem (List.mem_map_of_mem f hv)
        ⟨"ValueError: index cannot contain negative values", hpadneg 1526 (f v) hvlen⟩
  · intro g hg
    constructor
    · intro hlen
      unfold _creat_resnet18_face
      rw [mapExcept_ok_of_forall (g := g) (fun v hv => by rw [hg v hv])]
      simp only [bind, Except.bind]
      rw [mapExcept_ok_of_forall (g := fun a =>
        a ++ List.replicate (459 - a.length) (List.replicate (a.headD []).length 0))
        (fun a ha => by
          obtain ⟨v, hv, rfl⟩ := List.mem_map.mp ha
          exact hpad 459 (g v) (hlen v hv))]
      rw [List.map_map]
      rfl
    · intro hex
      obtain ⟨v, hv, hvlen⟩ := hex
      unfold _creat_resnet18_face
      rw [mapExcept_ok_of_forall (g := g) (fun w hw => by rw [hg w hw])]
      simp only [bind, Except.bind]
      exact mapExcept_error_of_mem (List.mem_map_of_mem g hv)
        ⟨"ValueError: index cannot contain negative values", hpadneg 459 (g v) hvlen⟩

theorem padSeq_example_ok : padSeq 4 [[1], [2]] = Except.ok [[1], [2], [0], [0]] := by
  decide

theorem padSeq_example_too_long :
    padSeq 1 [[1], [2]] = Except.error "ValueError: index cannot contain negative values" := by
  decide

theorem sortKeys_range (n : Nat) : sortKeys (List.range n) = List.range n :=
  List.Sorted.insertionSort_eq ((List.pairwise_lt_range n).imp (fun h => le_of_lt h))

theorem dictInsert_gt {K β : Type} [LinearOrder K] {m : List (K × β)} {k : K} {v : β}
    (h : ∀ p ∈ m, p.1 < k) : dictInsert m k v = m ++ [(k, v)] := by
  induction m with
  | nil => rfl
  | cons q m ih =>
    obtain ⟨k2, v2⟩ := q
    have hq := h (k2, v2) (List.mem_cons_self _ m)
    unfold dictInsert
    rw [if_neg (asymm hq), if_neg (ne_of_gt hq)]
    rw [ih (fun p hp => h p (List.mem_cons_of_mem _ hp))]
    rfl

theorem pyfold_ascending {K β : Type} [LinearOrder K] :
    ∀ (l m : List (K × β)), List.Pairwise (fun p q => p.1 < q.1) l →
      (∀ p ∈ m, ∀ q ∈ l, p.1 < q.1) →
      List.foldl (fun m2 p => dictInsert m2 p.1 p.2) m l = m ++ l := by
  intro l
  induction l with
  | nil =>
    intro m _ _
    rw [List.foldl_nil, List.append_nil]
  | cons a l ih =>
    intro m hp hml
    rw [List.foldl_cons]
    have h1 : dictInsert m a.1 a.2 = m ++ [a] :=
      dictInsert_gt (fun p hp2 => hml p hp2 a (List.mem_cons_self a l))
    rw [h1, ih (m ++ [a]) (List.Pairwise.of_cons hp) ?_]
    · rw [List.append_assoc]
      rfl
    · intro p hpm q hq
      rcases List.mem_append.mp hpm with h2 | h2
      · exact hml p h2 q (List.mem_cons_of_mem a hq)
      · rw [List.mem_singleton.mp h2]
        exact (List.pairwise_cons.mp hp).1 q hq

theorem pyDictOfList_ascending {K β : Type} [LinearOrder K] {l : List (K × β)}
    (h : List.Pairwise (fun p q => p.1 < q.1) l) : pyDictOfList l = l := by
  unfold pyDictOfList
  rw [pyfold_ascending l [] h (by intro p hp q hq; cases hp)]
  rfl

theorem dictFind_const {K β : Type} [DecidableEq K] {l : List K} {c : β} {v : K}
    (hv : v ∈ l) : dictFind (l.map (fun s => (s, c))) v = some c := by
  induction l with
  | nil => cases hv
  | cons a l ih =>
    unfold dictFind
    rw [List.map_cons]
    by_cases ha : a = v
    · rw [List.find?_cons_of_pos _ (by simpa using ha)]
      rfl
    · rw [List.find?_cons_of_neg _ (by simpa using ha)]
      rcases List.mem_cons.mp hv with rfl | hvl
      · exact absurd rfl ha
      · exact ih hvl

theorem get_gt_wRaw (split : Split) :
    _get_gt (fun k => k) wRaw split =
      Except.ok ((List.range (SET_SIZE split)).map (fun s => (s, ([3] : List ℚ))), [1]) := by
  unfold _get_gt wRaw
  simp only []
  have hdk : dictKeys [((0 : Nat), wCol (SET_SIZE split)), (1, wCol (SET_SIZE split))]
      = [0, 1] := rfl
  have her : (([0, 1] : List Nat).eraseIdx (([0, 1] : List Nat).length - 2)) = [1] := rfl
  simp only [hdk, her]
  rw [if_neg (by decide)]
  have hh : ([1] : List Nat).head? = some 1 := rfl
  have hdf : dictFind [((0 : Nat), wCol (SET_SIZE split)), (1, wCol (SET_SIZE split))] 1
      = some (wCol (SET_SIZE split)) := rfl
  simp only [hh, hdf]
  rw [show (wCol (SET_SIZE split)).keys = List.range (SET_SIZE split) from rfl,
    sortKeys_range]
  have step : ∀ F : Nat → Except String (Nat × List ℚ),
      (∀ a ∈ List.range (SET_SIZE split), F a = Except.ok (a, [3])) →
      (bind (mapExcept F (List.range (SET_SIZE split)))
        (fun gtList => Except.ok (pyDictOfList gtList, ([1] : List Nat)))
        : Except String (List (Nat × List ℚ) × List Nat))
        = Except.ok ((List.range (SET_SIZE split)).map (fun s => (s, ([3] : List ℚ))), [1]) := by
    intro F hF
    rw [mapExcept_ok_of_forall (g := fun s => (s, ([3] : List ℚ))) hF]
    simp only [bind, Except.bind]
    rw [pyDictOfList_ascending (by
      rw [List.pairwise_map]
      exact List.pairwise_lt_range _)]
  exact step _ (fun a ha => rfl)

theorem mapF32_id (x : Arr3) : mapF32 (fun q => q) x = x := by
  unfold mapF32
  simp only [List.map_id']

theorem audioSlot_wFS (split : Split) : audioSlot split wFS = some (wArr (SET_SIZE split)) := by
  cases split <;> rfl

theorem faceSlot_wFS (split : Split) : faceSlot split wFS = some (wArr (SET_SIZE split)) := by
  cases split <;> rfl

theorem textSlot_wFS (split : Split) : textSlot split wFS = some (wArr (SET_SIZE split)) := by
  cases split <;> rfl

theorem load_split_wRaw (split : Split) :
    load_impressionv2_dataset_split (fun q => q) (fun q => q) (fun k => k) wRaw split wFS
      = Except.ok (wDS (SET_SIZE split), [1], wFS) := by
  have hga : _get_lld_audio (fun q => q) (fun q => q) wRaw split
      (List.range (SET_SIZE split)) wFS = Except.ok (wArr (SET_SIZE split), wFS) := by
    unfold _get_lld_audio
    rw [audioSlot_wFS]
    show Except.ok (mapF32 (fun q => q) (wArr (SET_SIZE split)), wFS) = _
    rw [mapF32_id]
  have hgf : _get_resnet18_face wRaw split (List.range (SET_SIZE split)) wFS
      = Except.ok (wArr (SET_SIZE split), wFS) := by
    unfold _get_resnet18_face
    rw [faceSlot_wFS]
  have hgt : _get_bert_text wRaw split (List.range (SET_SIZE split)) wFS
      = Except.ok (wArr (SET_SIZE split), wFS) := by
    unfold _get_bert_text
    rw [textSlot_wFS]
  have hdk : dictKeys ((List.range (SET_SIZE split)).map (fun s => (s, ([3] : List ℚ))))
      = List.range (SET_SIZE split) := by
    unfold dictKeys
    rw [List.map_map]
    exact List.map_id'' (fun s => rfl) _
  have hmk : mkTensorDataset (wArr (SET_SIZE split)) (wArr (SET_SIZE split))
      (wArr (SET_SIZE split)) ((List.range (SET_SIZE split)).map (fun _ => ([3] : List ℚ)))
      = Except.ok (wDS (SET_SIZE split)) := by
    unfold mkTensorDataset wDS wArr
    rw [if_pos]
    simp [List.length_replicate, List.length_map, List.length_range]
  unfold load_impressionv2_dataset_split
  rw [get_gt_wRaw]
  simp only [bind, Except.bind]
  rw [hdk, sortKeys_range, if_pos (by rw [List.length_range])]
  rw [hga]
  simp only [bind, Except.bind]
  rw [hgf]
  simp only [bind, Except.bind]
  rw [hgt]
  simp only [bind, Except.bind]
  have steplab : ∀ F : Nat → Except String (List ℚ),
      (∀ a ∈ List.range (SET_SIZE split), F a = Except.ok [3]) →
      (bind (mapExcept F (List.range (SET_SIZE split)))
        (fun label_list => bind (mkTensorDataset (wArr (SET_SIZE split))
          (wArr (SET_SIZE split)) (wArr (SET_SIZE split)) label_list)
          (fun ds => Except.ok (ds, ([1] : List Nat), wFS)))
        : Except String (SplitDataset × List Nat × FS))
        = Except.ok (wDS (SET_SIZE split), [1], wFS) := by
    intro F hF
    rw [mapExcept_ok_of_forall (g := fun _ => ([3] : List ℚ)) hF]
    simp only [bind, Except.bind]
    rw [hmk]
  exact steplab _ (fun a ha => by
    rw [dictFind_const ha])

theorem bind_ok_except {ε α β : Type} (a : α) (f : α → Except ε β) :
    (bind (Except.ok a) f : Except ε β) = f a := rfl

theorem prod_fst {α β : Type} (a : α) (b : β) : (a, b).1 = a := rfl

theorem prod_snd {α β : Type} (a : α) (b : β) : (a, b).2 = b := rfl

theorem load_all_wRaw :
    load_impressionv2_dataset_all (fun q => q) (fun q => q) (fun k => k) wRaw
      (some 10) none none true wFS
      = Except.ok ((MaybeWrapped.wrapped (wDS 6000) ⟨some 10, none, none, true⟩,
          MaybeWrapped.wrapped (wDS 2000) ⟨some 10, none, none, false⟩,
          MaybeWrapped.wrapped (wDS 2000) ⟨some 10, none, none, false⟩), [1], wFS) := by
  have hw : (((some 10 : Option Nat).isSome || (none : Option Nat).isSome)
      || (none : Option Nat).isSome) = true := rfl
  have hw2 : ((some 10 : Option Nat).isSome || ((none : Option Nat).isSome
      || (none : Option Nat).isSome)) = true := rfl
  unfold load_impressionv2_dataset_all
  rw [load_split_wRaw, bind_ok_except]
  simp only [prod_fst, prod_snd]
  rw [load_split_wRaw, bind_ok_except]
  simp only [prod_fst, prod_snd]
  rw [load_split_wRaw, bind_ok_except]
  simp only [prod_fst, prod_snd, hw, hw2, eq_self_iff_true, if_true, SET_SIZE]

/-- C8. When any resampling target length is specified, the top-level
loader wraps validation and test with the transform in deterministic
mode unconditionally, while only the train wrapper receives the
randomness flag. -/
theorem C8_valid_test_deterministic {K : Type} [LinearOrder K] (sqrtQ f32 : ℚ → ℚ)
    (stem : K → K) (raw : RawData K) (srA srF srT : Option Nat) (is_random : Bool)
    (fs : FS) (w1 w2 w3 : MaybeWrapped) (ns : List K) (fs3 : FS)
    (h : load_impressionv2_dataset_all sqrtQ f32 stem raw srA srF srT is_random fs
      = Except.ok ((w1, w2, w3), ns, fs3))
    (hw : srA ≠ none ∨ srF ≠ none ∨ srT ≠ none) :
    ∃ d1 d2 d3, w1 = MaybeWrapped.wrapped d1 ⟨srA, srF, srT, is_random⟩
      ∧ w2 = MaybeWrapped.wrapped d2 ⟨srA, srF, srT, false⟩
      ∧ w3 = MaybeWrapped.wrapped d3 ⟨srA, srF, srT, false⟩ := by
  have hwrap : (srA.isSome || srF.isSome || srT.isSome) = true := by
    rcases hw with h1 | h1 | h1 <;> cases srA <;> cases srF <;> cases srT <;> simp_all
  unfold load_impressionv2_dataset_all at h
  cases h1 : load_impressionv2_dataset_split sqrtQ f32 stem raw .train fs with
  | error e =>
    rw [h1] at h
    simp only [bind, Except.bind] at h
    cases h
  | ok r1 =>
    rw [h1] at h
    simp only [bind, Except.bind] at h
    cases h2 : load_impressionv2_dataset_split sqrtQ f32 stem raw .valid r1.2.2 with
    | error e =>
      rw [h2] at h
      simp only [bind, Except.bind] at h
      cases h
    | ok r2 =>
      rw [h2] at h
      simp only [bind, Except.bind] at h
      cases h3 : load_impressionv2_dataset_split sqrtQ f32 stem raw .test r2.2.2 with
      | error e =>
        rw [h3] at h
        simp only [bind, Except.bind] at h
        cases h
      | ok r3 =>
        rw [h3] at h
        simp only [bind, Except.bind, hwrap, if_true] at h
        by_cases hnv : r1.2.1 = r3.2.1
        · rw [if_pos hnv] at h
          by_cases hnt : r1.2.1 = r2.2.1
          · rw [if_pos hnt] at h
            simp only [Except.ok.injEq, Prod.mk.injEq] at h
            obtain ⟨⟨e1, e2, e3⟩, _, _⟩ := h
            exact ⟨r1.1, r2.1, r3.1, e1.symm, e2.symm, e3.symm⟩
          · rw [if_neg hnt] at h
            cases h
        · rw [if_neg hnv] at h
          cases h

/-- C8, witness: the concrete top-level load with audio target length 10
and randomized train wraps valid and test deterministically. -/
theorem C8_witness :
    ∃ d1 d2 d3,
      MaybeWrapped.wrapped (wDS 6000) ⟨some 10, none, none, true⟩
        = MaybeWrapped.wrapped d1 ⟨some 10, none, none, true⟩
      ∧ MaybeWrapped.wrapped (wDS 2000) ⟨some 10, none, none, false⟩
        = MaybeWrapped.wrapped d2 ⟨some 10, none, none, false⟩
      ∧ MaybeWrapped.wrapped (wDS 2000) ⟨some 10, none, none, false⟩
        = MaybeWrapped.wrapped d3 ⟨some 10, none, none, false⟩ :=
  C8_valid_test_deterministic (fun q => q) (fun q => q) (fun k => k) wRaw
    (some 10) none none true wFS
    (MaybeWrapped.wrapped (wDS 6000) ⟨some 10, none, none, true⟩)
    (MaybeWrapped.wrapped (wDS 2000) ⟨some 10, none, none, false⟩)
    (MaybeWrapped.wrapped (wDS 2000) ⟨some 10, none, none, false⟩)
    [1] wFS load_all_wRaw (Or.inl (by simp))

/-- C9. Label-name consistency: with the three split loads succeeding,
the top-level loader succeeds exactly when the train label names equal
both the valid and the test label names, returning the single shared
list, and stops with an assertion error on any mismatch. -/
theorem C9_label_name_consistency {K : Type} [LinearOrder K] (sqrtQ f32 : ℚ → ℚ)
    (stem : K → K) (raw : RawData K) (srA srF srT : Option Nat) (is_random : Bool)
    (fs : FS) (d1 d2 d3 : SplitDataset) (n1 n2 n3 : List K) (fs1 fs2 fs3 : FS)
    (h1 : load_impressionv2_dataset_split sqrtQ f32 stem raw .train fs
      = Except.ok (d1, n1, fs1))
    (h2 : load_impressionv2_dataset_split sqrtQ f32 stem raw .valid fs1
      = Except.ok (d2, n2, fs2))
    (h3 : load_impressionv2_dataset_split sqrtQ f32 stem raw .test fs2
      = Except.ok (d3, n3, fs3)) :
    ((n1 = n2 ∧ n1 = n3) → ∃ w1 w2 w3,
      load_impressionv2_dataset_all sqrtQ f32 stem raw srA srF srT is_random fs
        = Except.ok ((w1, w2, w3), n1, fs3))
    ∧ (¬ (n1 = n2 ∧ n1 = n3) → ∃ msg,
      load_impressionv2_dataset_all sqrtQ f32 stem raw srA srF srT is_random fs
        = Except.error msg) := by
  unfold load_impressionv2_dataset_all
  rw [h1]
  simp only [bind, Except.bind]
  rw [h2]
  simp only [bind, Except.bind]
  rw [h3]
  simp only [bind, Except.bind]
  constructor
  · rintro ⟨ha, hb⟩
    refine ⟨(if (srA.isSome || srF.isSome || srT.isSome) = true then
        MaybeWrapped.wrapped d1 ⟨srA, srF, srT, is_random⟩ else MaybeWrapped.plain d1),
      (if (srA.isSome || srF.isSome || srT.isSome) = true then
        MaybeWrapped.wrapped d2 ⟨srA, srF, srT, false⟩ else MaybeWrapped.plain d2),
      (if (srA.isSome || srF.isSome || srT.isSome) = true then
        MaybeWrapped.wrapped d3 ⟨srA, srF, srT, false⟩ else MaybeWrapped.plain d3), ?_⟩
    rw [if_pos hb, if_pos ha]
  · intro hn
    by_cases hb : n1 = n3
    · have ha : ¬ n1 = n2 := fun hcon => hn ⟨hcon, hb⟩
      rw [if_pos hb, if_neg ha]
      exact ⟨_, rfl⟩
    · rw [if_neg hb]
      exact ⟨_, rfl⟩

/-- C9, witness: the three concrete split loads share the label-name
list, so the top-level load succeeds and returns it. -/
theorem C9_witness :
    ((([1] : List Nat) = [1] ∧ ([1] : List Nat) = [1]) → ∃ w1 w2 w3,
      load_impressionv2_dataset_all (fun q => q) (fun q => q) (fun k => k) wRaw
        (some 10) none none true wFS = Except.ok ((w1, w2, w3), [1], wFS))
    ∧ (¬ (([1] : List Nat) = [1] ∧ ([1] : List Nat) = [1]) → ∃ msg,
      load_impressionv2_dataset_all (fun q => q) (fun q => q) (fun k => k) wRaw
        (some 10) none none true wFS = Except.error msg) :=
  C9_label_name_consistency (fun q => q) (fun q => q) (fun k => k) wRaw
    (some 10) none none true wFS
    (wDS (SET_SIZE .train)) (wDS (SET_SIZE .valid)) (wDS (SET_SIZE .test))
    [1] [1] [1] wFS wFS wFS
    (load_split_wRaw .train) (load_split_wRaw .valid) (load_split_wRaw .test)

end ImpressionV2
